import Mathlib

/-!
# sftpbackup: a model of `main.go`

The program is one linear procedure: `connect` opens an ssh connection and an
sftp client on it, `download` lists one remote directory and copies every
non-directory entry into a dated local directory, `main` chains the two and
terminates through `log.Fatal` on the first error.

The embedding is state passing.  A `World` holds the local file system, the
handles the program holds open and the chronological trace of the operations
it performed.  The results of the library calls (network, sftp server, local
file system, clock, `filepath.Join`) are supplied by an `Env`, so that every
outcome the Go code branches on is an explicit input of the model.
-/

namespace SftpBackup

/-- An error value, as printed by `%v`. -/
abbrev Err := String

/-- The byte content of a file. -/
abbrev Bytes := List Nat

/-- The layout of dates: `const dateFormat = "2006-01-02"`. -/
def dateFormat : String := "2006-01-02"

/-- The Go struct `Transfer`, the flag-populated configuration record. -/
structure Transfer where
  Server : String
  Port : Int
  Username : String
  Password : String
  RemoteDir : String
  LocalDir : String

/-- The outcome of `flag.Parse()` on the command line: the configuration record
filled from the flags, or the exit status with which the flag package ends the
process on a command line it does not accept (the flags are registered on the
default flag set, which exits on error). -/
inductive Flags where
  | parsed (tr : Transfer)
  | exit (code : Nat)

/-- The part of `os.FileInfo` that `download` reads: `Name()` and `IsDir()`. -/
structure FileInfo where
  name : String
  isDir : Bool
deriving DecidableEq, Repr

/-- The two `ssh.AuthMethod` values that `connect` can build. -/
inductive AuthMethod where
  /-- The value `ssh.PublicKeysCallback(agent.NewClient(aconn).Signers)`. -/
  | publicKeysCallback
  /-- The value `ssh.Password(tr.Password)`. -/
  | password (pw : String)
deriving DecidableEq, Repr

/-- One operation performed by the program, in the order of execution. -/
inductive Event where
  | log (msg : String)
  | agentDial (ok : Bool)
  | sshDial (addr : String) (user : String) (auths : List AuthMethod) (ok : Bool)
  | sftpNewClient (ok : Bool)
  | readDir (path : String) (ok : Bool)
  | mkdirAll (path : String) (ok : Bool)
  | create (path : String) (ok : Bool)
  | openRemote (path : String) (ok : Bool)
  | copy (src : String) (dst : String) (ok : Bool)
  | closeRemote (path : String)
  | closeLocal (path : String)
  | closeClient
  | closeConn
  | exit (code : Nat)
deriving DecidableEq, Repr

/-- What one call of `os.MkdirAll` did: the directories it brought into
existence (missing ancestors, also when the call fails half way) and its
error. -/
structure MkdirResult where
  made : List String
  err : Option Err

/-- The outcomes of the library calls of one run.  The per-entry calls of the
copy loop are indexed by the position of the entry in the listing, so that two
entries of one listing can meet different outcomes. -/
structure Env where
  /-- The function `filepath.Join` on two elements. -/
  join : String → String → String
  /-- The value of `time.Now().Format(dateFormat)`. -/
  today : String
  /-- Whether `net.Dial("unix", "")` returned without error. -/
  agentDial : Bool
  /-- The error of `ssh.Dial("tcp", addr, &config)`, by address, user and
  auth method list. -/
  sshDial : String → String → List AuthMethod → Option Err
  /-- The error of `sftp.NewClient(conn)`. -/
  sftpNewClient : Option Err
  /-- The result of `client.ReadDir`. -/
  readDir : String → Except Err (List FileInfo)
  /-- The result of `os.MkdirAll(dir, 0777)`. -/
  mkdirAll : String → MkdirResult
  /-- The error of `os.Create` for entry `i` at a local path. -/
  create : Nat → String → Option Err
  /-- The error of `client.Open` for entry `i` at a remote path. -/
  openErr : Nat → String → Option Err
  /-- The content of the remote file at a path. -/
  remoteContent : String → Bytes
  /-- The failure of `io.Copy` for entry `i` into a local path: the number of
  bytes written before the error, and the error. -/
  copyErr : Nat → String → Option (Nat × Err)

/-- The observable state: the local file system, the open handles and the
trace of operations so far. -/
structure World where
  /-- The regular files of the local file system, by path. -/
  files : String → Option Bytes
  /-- The directories of the local file system, by path. -/
  dirs : String → Bool
  /-- The operations performed so far, oldest first. -/
  trace : List Event
  /-- The local file handles that are open, most recent first. -/
  localOpen : List String
  /-- Whether the ssh connection is open. -/
  connOpen : Bool
  /-- Whether the sftp client is open. -/
  clientOpen : Bool

/-- Appends one operation to the trace. -/
def World.emit (w : World) (e : Event) : World :=
  { w with trace := w.trace ++ [e] }

/-- The call `log.Println(msg)`. -/
def World.logln (w : World) (msg : String) : World :=
  w.emit (Event.log msg)

/-- Sets the content of the local file at `p`. -/
def World.setFile (w : World) (p : String) (b : Bytes) : World :=
  { w with files := fun q => if q = p then some b else w.files q }

/-- Writes `b` through a handle on `p` that stands at offset 0, as the first
write after `os.Create` does: the bytes replace the first bytes of the file and
what the file holds beyond them stays. -/
def World.write (w : World) (p : String) (b : Bytes) : World :=
  { w with
    files := fun q =>
      if q = p then some (b ++ ((w.files p).getD []).drop b.length) else w.files q }

/-- A successful `os.Create(p)`: the file exists and is empty, and one more
local handle is open. -/
def World.createOk (w : World) (p : String) : World :=
  { (w.setFile p []).emit (Event.create p true) with localOpen := p :: w.localOpen }

/-- The call `local.Close()`. -/
def World.closeLocal (w : World) (p : String) : World :=
  { w.emit (Event.closeLocal p) with localOpen := w.localOpen.erase p }

/-- The effect of `os.MkdirAll(dir, 0777)` with result `r` on the directories. -/
def World.mkdirAll (w : World) (dir : String) (r : MkdirResult) : World :=
  { w with
    dirs := fun q => w.dirs q || decide (q ∈ r.made) || (r.err.isNone && decide (q = dir))
    trace := w.trace ++ [Event.mkdirAll dir r.err.isNone] }

/-- The method `Transfer.connect`.  The returned handles are the flags
`connOpen` and `clientOpen` of the world. -/
def connect (env : Env) (tr : Transfer) (w : World) : Option Err × World :=
  let auths0 : List AuthMethod := []
  let w := w.emit (Event.agentDial env.agentDial)
  let auths1 := if env.agentDial then auths0 ++ [AuthMethod.publicKeysCallback] else auths0
  let auths := if tr.Password ≠ "" then auths1 ++ [AuthMethod.password tr.Password] else auths1
  let addr := tr.Server ++ ":" ++ toString tr.Port
  match env.sshDial addr tr.Username auths with
  | some e =>
    (some e, (w.emit (Event.sshDial addr tr.Username auths false)).logln
      ("Error unable to connect to [" ++ addr ++ "]: " ++ e))
  | none =>
    let w := { w.emit (Event.sshDial addr tr.Username auths true) with connOpen := true }
    match env.sftpNewClient with
    | some e =>
      (some e, (w.emit (Event.sftpNewClient false)).logln
        ("Error unable to start sftp subsystem: " ++ e))
    | none => (none, { w.emit (Event.sftpNewClient true) with clientOpen := true })

/-- The first loop of `download` (`// DEBUG`): one log line per non-directory
entry. -/
def logFound : List FileInfo → World → World
  | [], w => w
  | f :: rest, w =>
    if !f.isDir then logFound rest (w.logln ("Found file: " ++ f.name))
    else logFound rest w

/-- The copy loop of `download`, from entry `i` on.  `defers` is the stack of
the `defer local.Close()` calls registered so far, most recent first.  The
result is the error of the `return` inside the loop, if any, with the stack and
the world at that point. -/
def downloadLoop (env : Env) (remoteDir dir : String) :
    Nat → List FileInfo → List String → World → Option Err × List String × World
  | _, [], defers, w => (none, defers, w)
  | i, f :: rest, defers, w =>
    if !f.isDir then
      let lp := env.join dir f.name
      match env.create i lp with
      | some e =>
        (some e, defers, (w.emit (Event.create lp false)).logln
          ("Error can not open local file: " ++ e))
      | none =>
        let w := w.createOk lp
        let defers := lp :: defers
        let remoteFile := env.join remoteDir f.name
        match env.openErr i remoteFile with
        | some e =>
          (some e, defers, (w.emit (Event.openRemote remoteFile false)).logln
            ("Error while receiving: " ++ e))
        | none =>
          let w := w.emit (Event.openRemote remoteFile true)
          match env.copyErr i lp with
          | some (n, e) =>
            (some e, defers,
              ((((w.write lp ((env.remoteContent remoteFile).take n)).emit
                (Event.copy remoteFile lp false)).logln
                ("Error while receiving: " ++ e)).emit (Event.closeRemote remoteFile)))
          | none =>
            downloadLoop env remoteDir dir (i + 1) rest defers
              ((((w.write lp (env.remoteContent remoteFile)).emit
                (Event.copy remoteFile lp true)).emit (Event.closeRemote remoteFile)).logln
                ("Received '" ++ f.name ++ "'"))
    else downloadLoop env remoteDir dir (i + 1) rest defers w

/-- The deferred calls of `download`, run when it returns, last registered
first. -/
def runDefers : List String → World → World
  | [], w => w
  | p :: ps, w => runDefers ps (w.closeLocal p)

/-- The method `Transfer.download`. -/
def download (env : Env) (tr : Transfer) (w : World) : Option Err × World :=
  match env.readDir tr.RemoteDir with
  | Except.error e =>
    (some e, (w.emit (Event.readDir tr.RemoteDir false)).logln
      ("Error while receiving: " ++ e))
  | Except.ok files =>
    let w := logFound files (w.emit (Event.readDir tr.RemoteDir true))
    let dir := env.join tr.LocalDir env.today
    let r := env.mkdirAll dir
    match r.err with
    | some e => (some e, w.mkdirAll dir r)
    | none =>
      let w := (w.mkdirAll dir r).logln ("Created dir " ++ dir)
      match downloadLoop env tr.RemoteDir dir 0 files [] w with
      | (err, defers, w) => (err, runDefers defers w)

/-- The function `fatal`: `log.Fatal(err)` prints the error and calls
`os.Exit(1)`; deferred calls do not run. -/
def fatal (e : Err) (w : World) : World :=
  (w.logln e).emit (Event.exit 1)

/-- The function `main`, from the outcome of `flag.Parse()`: the final world
and the exit status.  The two `defer` statements are reached only after
`download` succeeded; they run when `main` returns, `conn.Close()` first. -/
def main (env : Env) (flags : Flags) (w : World) : World × Nat :=
  match flags with
  | Flags.exit code => (w.emit (Event.exit code), code)
  | Flags.parsed tr =>
    let w := w.logln ("Connecting: " ++ tr.Server)
    match connect env tr w with
    | (some e, w) => (fatal e w, 1)
    | (none, w) =>
      match download env tr w with
      | (some e, w) => (fatal e w, 1)
      | (none, w) =>
        let w := w.logln "Backup done."
        let w := { w.emit Event.closeConn with connOpen := false }
        let w := { w.emit Event.closeClient with clientOpen := false }
        (w.emit (Event.exit 0), 0)

/-! ## Specification vocabulary -/

/-- The names of the non-directory entries of a listing, in listing order. -/
def fileNames (files : List FileInfo) : List String :=
  (files.filter (fun f => !f.isDir)).map (fun f => f.name)

/-- The error of the loop body for entry `i`, as decided by the outcomes of
`os.Create`, `client.Open` and `io.Copy`; `none` for a directory entry, which
the loop skips. -/
def entryErr (env : Env) (remoteDir dir : String) (i : Nat) (f : FileInfo) : Option Err :=
  if f.isDir then none
  else match env.create i (env.join dir f.name) with
    | some e => some e
    | none =>
      match env.openErr i (env.join remoteDir f.name) with
      | some e => some e
      | none => (env.copyErr i (env.join dir f.name)).map (fun r => r.2)

/-- Every create, open and copy step of the entries `files`, at positions `i`,
`i + 1`, ..., succeeds. -/
def stepsOk (env : Env) (remoteDir dir : String) : Nat → List FileInfo → Bool
  | _, [] => true
  | i, f :: rest => (entryErr env remoteDir dir i f).isNone && stepsOk env remoteDir dir (i + 1) rest

/-- The operations that a run added to the trace. -/
def newEvents (before after : World) : List Event :=
  after.trace.drop before.trace.length

/-- The local paths at which a file was created (`os.Create` returned no
error), in order. -/
def createdFiles : List Event → List String
  | [] => []
  | Event.create p true :: rest => p :: createdFiles rest
  | _ :: rest => createdFiles rest

/-- The local paths at which `os.Create` was called, in order. -/
def createCalls : List Event → List String
  | [] => []
  | Event.create p _ :: rest => p :: createCalls rest
  | _ :: rest => createCalls rest

/-- The remote paths at which `client.Open` was called, in order. -/
def openCalls : List Event → List String
  | [] => []
  | Event.openRemote p _ :: rest => p :: openCalls rest
  | _ :: rest => openCalls rest

/-- The paths at which `os.MkdirAll` was called, in order. -/
def mkdirCalls : List Event → List String
  | [] => []
  | Event.mkdirAll p _ :: rest => p :: mkdirCalls rest
  | _ :: rest => mkdirCalls rest

/-- The local handles closed by the program, in order. -/
def closedLocal : List Event → List String
  | [] => []
  | Event.closeLocal p :: rest => p :: closedLocal rest
  | _ :: rest => closedLocal rest

/-- The address, user and auth method list of every `ssh.Dial` call, in order. -/
def dialCalls : List Event → List (String × String × List AuthMethod)
  | [] => []
  | Event.sshDial addr user auths _ :: rest => (addr, user, auths) :: dialCalls rest
  | _ :: rest => dialCalls rest

/-- The auth method list as the specification words it: the agent key-signing
method if the agent dial succeeded, then the password method if the password
is not empty. -/
def specAuths (agentOk : Bool) (password : String) : List AuthMethod :=
  (if agentOk then [AuthMethod.publicKeysCallback] else []) ++
  (if password = "" then [] else [AuthMethod.password password])

/-- The address that `connect` dials: `fmt.Sprintf("%s:%d", tr.Server, tr.Port)`. -/
def Transfer.addr (tr : Transfer) : String :=
  tr.Server ++ ":" ++ toString tr.Port

/-- The world after the first statements of `main`: the log line and the call
of `connect`, with the error of `connect`. -/
def connected (env : Env) (tr : Transfer) (w : World) : Option Err × World :=
  connect env tr (w.logln ("Connecting: " ++ tr.Server))

/-- The dated local directory of a run. -/
def datedDir (env : Env) (tr : Transfer) : String :=
  env.join tr.LocalDir env.today

/-- The content that copying the entries `files` successfully leaves at the
local path `p`, if one of them is written there: the last writer wins. -/
def written (env : Env) (remoteDir dir : String) : List FileInfo → String → Option Bytes
  | [], _ => none
  | f :: rest, p =>
    match written env remoteDir dir rest p with
    | some b => some b
    | none =>
      if !f.isDir && decide (p = env.join dir f.name) then
        some (env.remoteContent (env.join remoteDir f.name))
      else none

/-- The first option if it holds a value, else the second. -/
def overlay (a b : Option Bytes) : Option Bytes :=
  match a with
  | some x => some x
  | none => b

/-- The operations of the loop body for one entry when every step succeeds. -/
def entryEvents (env : Env) (remoteDir dir : String) (f : FileInfo) : List Event :=
  if f.isDir then []
  else
    [Event.create (env.join dir f.name) true,
     Event.openRemote (env.join remoteDir f.name) true,
     Event.copy (env.join remoteDir f.name) (env.join dir f.name) true,
     Event.closeRemote (env.join remoteDir f.name),
     Event.log ("Received '" ++ f.name ++ "'")]

/-- The operations of the copy loop over `files` when every step succeeds. -/
def okEvents (env : Env) (remoteDir dir : String) : List FileInfo → List Event
  | [] => []
  | f :: rest => entryEvents env remoteDir dir f ++ okEvents env remoteDir dir rest

/-- The log lines of the first loop of `download`. -/
def foundEvents : List FileInfo → List Event
  | [] => []
  | f :: rest =>
    if f.isDir then foundEvents rest
    else Event.log ("Found file: " ++ f.name) :: foundEvents rest

/-- The operations of the loop body for a non-directory entry `i` whose create,
open or copy step fails. -/
def failEvents (env : Env) (remoteDir dir : String) (i : Nat) (f : FileInfo) : List Event :=
  match env.create i (env.join dir f.name) with
  | some e =>
    [Event.create (env.join dir f.name) false,
     Event.log ("Error can not open local file: " ++ e)]
  | none =>
    match env.openErr i (env.join remoteDir f.name) with
    | some e =>
      [Event.create (env.join dir f.name) true,
       Event.openRemote (env.join remoteDir f.name) false,
       Event.log ("Error while receiving: " ++ e)]
    | none =>
      match env.copyErr i (env.join dir f.name) with
      | some (_, e) =>
        [Event.create (env.join dir f.name) true,
         Event.openRemote (env.join remoteDir f.name) true,
         Event.copy (env.join remoteDir f.name) (env.join dir f.name) false,
         Event.log ("Error while receiving: " ++ e),
         Event.closeRemote (env.join remoteDir f.name)]
      | none => []

/-- The local files after the loop body for a non-directory entry `i` whose
create, open or copy step fails, from the files `prev` before it. -/
def failFiles (env : Env) (remoteDir dir : String) (i : Nat) (f : FileInfo)
    (prev : String → Option Bytes) : String → Option Bytes :=
  match env.create i (env.join dir f.name) with
  | some _ => prev
  | none =>
    match env.openErr i (env.join remoteDir f.name) with
    | some _ => fun q => if q = env.join dir f.name then some [] else prev q
    | none =>
      match env.copyErr i (env.join dir f.name) with
      | some (n, _) =>
        fun q => if q = env.join dir f.name then
          some ((env.remoteContent (env.join remoteDir f.name)).take n) else prev q
      | none => prev

/-- The local handle that the loop body for entry `i` opens: none when the
create fails. -/
def failDefers (env : Env) (dir : String) (i : Nat) (f : FileInfo) : List String :=
  if (env.create i (env.join dir f.name)).isNone then [env.join dir f.name] else []

/-- At every point of a sequence of operations, the remote opens attempted so
far are no more than the local files created so far. -/
def OpensFollowCreates (evs : List Event) : Prop :=
  ∀ n : Nat, (openCalls (evs.take n)).length ≤ (createdFiles (evs.take n)).length

/-- The world in which the copy loop of `download` starts, when the listing
returned `files` and the dated directory was created. -/
def loopStart (env : Env) (tr : Transfer) (files : List FileInfo) (w : World) : World :=
  ((logFound files (w.emit (Event.readDir tr.RemoteDir true))).mkdirAll (datedDir env tr)
    (env.mkdirAll (datedDir env tr))).logln ("Created dir " ++ datedDir env tr)

/-- The operations of `download` up to the copy loop. -/
def startEvents (env : Env) (tr : Transfer) (files : List FileInfo) : List Event :=
  Event.readDir tr.RemoteDir true :: foundEvents files ++
    [Event.mkdirAll (datedDir env tr) true, Event.log ("Created dir " ++ datedDir env tr)]

/-! ## Concrete runs

`filepath.Join` belongs to the Go library; `unixJoin` is its behaviour on Unix
for two elements (empty elements are dropped, the rest is joined by a slash and
cleaned), used by the concrete environments below.  On base names it is
injective in its second element (`unixJoin_baseNames`); on other names it is
not: `a` and `./a` are joined to one path. -/

/-- Splits a path at every slash. -/
def splitSlash : List Char → List (List Char)
  | [] => [[]]
  | c :: cs =>
    if c = '/' then [] :: splitSlash cs
    else match splitSlash cs with
      | [] => [[c]]
      | x :: xs => (c :: x) :: xs

/-- One step of `filepath.Clean`: the stack of kept elements, last first, after
the element `c`. -/
def cleanStep (rooted : Bool) (stack : List (List Char)) (c : List Char) : List (List Char) :=
  if c = [] ∨ c = ['.'] then stack
  else if c = ['.', '.'] then
    match stack with
    | [] => if rooted then [] else [c]
    | top :: below => if top = ['.', '.'] then c :: stack else below
  else c :: stack

/-- Joins path elements by a slash. -/
def joinSlash : List (List Char) → List Char
  | [] => []
  | [x] => x
  | x :: y :: rest => x ++ '/' :: joinSlash (y :: rest)

/-- The function `filepath.Clean` on Unix, on the characters of a path. -/
def cleanChars (path : List Char) : List Char :=
  if path = [] then ['.']
  else
    let rooted := decide (path.head? = some '/')
    let body := joinSlash ((splitSlash path).foldl (cleanStep rooted) []).reverse
    if rooted then '/' :: body else if body = [] then ['.'] else body

/-- The function `filepath.Clean` on Unix. -/
def clean (path : String) : String :=
  String.mk (cleanChars path.data)

/-- The function `filepath.Join` on Unix, for two elements. -/
def unixJoin (a b : String) : String :=
  if a = "" then (if b = "" then "" else clean b)
  else if b = "" then clean a
  else clean (a ++ "/" ++ b)

/-- A base name: not empty, not `.` or `..`, and without a slash. -/
def isBaseName (s : String) : Bool :=
  decide (s.data ≠ [] ∧ s.data ≠ ['.'] ∧ s.data ≠ ['.', '.'] ∧ '/' ∉ s.data)

/-- A configuration: `-server host -p pw -remotedir r -localdir backup`. -/
def tr0 : Transfer :=
  { Server := "host", Port := 22, Username := "root", Password := "pw",
    RemoteDir := "r", LocalDir := "backup" }

/-- An empty local file system, no handle open, nothing done yet. -/
def w0 : World :=
  { files := fun _ => none, dirs := fun _ => false, trace := [], localOpen := [],
    connOpen := false, clientOpen := false }

/-- The world `w0` with an earlier copy of `a` in the dated directory. -/
def wOld : World :=
  { w0 with
    files := fun p => if p = "backup/2026-11-04/a" then some [9, 9, 9, 9, 9] else none }

/-- A run in which every call succeeds, on a listing of two files around a
directory. -/
def envOk : Env :=
  { join := unixJoin
    today := "2026-11-04"
    agentDial := false
    sshDial := fun _ _ _ => none
    sftpNewClient := none
    readDir := fun _ => Except.ok [⟨"a", false⟩, ⟨"sub", true⟩, ⟨"b", false⟩]
    mkdirAll := fun _ => ⟨[], none⟩
    create := fun _ _ => none
    openErr := fun _ _ => none
    remoteContent := fun p => if p = "r/a" then [1, 2, 3] else [4]
    copyErr := fun _ _ => none }

/-- As `envOk`, but `client.Open` fails for the entry at position 2. -/
def envOpenFail : Env :=
  { envOk with openErr := fun i _ => if i = 2 then some "open failed" else none }

/-- As `envOk`, but `client.Open` fails for the entry at position 0. -/
def envOpenFirst : Env :=
  { envOk with openErr := fun i _ => if i = 0 then some "open failed" else none }

/-- A listing that names `a` twice; `client.Open` fails for the second. -/
def envDup : Env :=
  { envOk with
    readDir := fun _ => Except.ok [⟨"a", false⟩, ⟨"a", false⟩]
    openErr := fun i _ => if i = 1 then some "open failed" else none }

/-- A listing of two distinct names that `filepath.Join` maps to one path. -/
def envDotSlash : Env :=
  { envOk with readDir := fun _ => Except.ok [⟨"a", false⟩, ⟨"./a", false⟩] }

/-- As `envOk`, but `os.MkdirAll` fails. -/
def envMkdirFail : Env :=
  { envOk with mkdirAll := fun _ => ⟨[], some "permission denied"⟩ }

/-- As `envOk`, but `ssh.Dial` fails. -/
def envDialFail : Env :=
  { envOk with sshDial := fun _ _ _ => some "no route to host" }

/-- As `envOk`, but `sftp.NewClient` fails. -/
def envSftpFail : Env :=
  { envOk with sftpNewClient := some "subsystem request failed" }

/-- As `envOk`, but `client.ReadDir` fails. -/
def envListFail : Env :=
  { envOk with readDir := fun _ => Except.error "no such directory" }

/-! ## The library function `filepath.Join` -/

theorem splitSlash_ne_nil (cs : List Char) : splitSlash cs ≠ [] := by
  cases cs with
  | nil => simp [splitSlash]
  | cons c cs =>
    simp only [splitSlash]
    split
    · simp
    · split <;> simp

theorem splitSlash_no_slash (b : List Char) (h : '/' ∉ b) : splitSlash b = [b] := by
  induction b with
  | nil => rfl
  | cons c cs ih =>
    simp only [List.mem_cons, not_or] at h
    have hc : c ≠ '/' := fun hc => h.1 hc.symm
    simp [splitSlash, hc, ih h.2]

theorem splitSlash_append (xs b : List Char) (h : '/' ∉ b) :
    splitSlash (xs ++ '/' :: b) = splitSlash xs ++ [b] := by
  induction xs with
  | nil => simp [splitSlash, splitSlash_no_slash b h]
  | cons c cs ih =>
    by_cases hc : c = '/'
    · simp [splitSlash, hc, ih]
    · simp only [List.cons_append, splitSlash, hc, if_false]
      change (match splitSlash (cs ++ '/' :: b) with
        | [] => [[c]]
        | x :: xs => (c :: x) :: xs) = _
      rw [ih]
      cases hs : splitSlash cs with
      | nil => exact absurd hs (splitSlash_ne_nil cs)
      | cons x rest => rfl

theorem joinSlash_snoc_inj (xs : List (List Char)) (a b : List Char)
    (h : joinSlash (xs ++ [a]) = joinSlash (xs ++ [b])) : a = b := by
  induction xs with
  | nil => simpa [joinSlash] using h
  | cons x rest ih =>
    cases rest with
    | nil =>
      simp only [List.cons_append, List.nil_append, joinSlash] at h
      simpa using h
    | cons y rest2 =>
      simp only [List.cons_append, joinSlash] at h ih
      apply ih
      simpa using h

theorem joinSlash_snoc_ne_nil (xs : List (List Char)) (a : List Char) (ha : a ≠ []) :
    joinSlash (xs ++ [a]) ≠ [] := by
  induction xs with
  | nil => simpa [joinSlash] using ha
  | cons x rest ih =>
    cases rest with
    | nil => simp [joinSlash]
    | cons y rest2 => simp [joinSlash]

theorem cleanChars_snoc_inj (d a b : List Char)
    (ha : a ≠ [] ∧ a ≠ ['.'] ∧ a ≠ ['.', '.'] ∧ '/' ∉ a)
    (hb : b ≠ [] ∧ b ≠ ['.'] ∧ b ≠ ['.', '.'] ∧ '/' ∉ b)
    (hd : d ≠ [])
    (h : cleanChars (d ++ '/' :: a) = cleanChars (d ++ '/' :: b)) : a = b := by
  have hhead : ∀ c : List Char, (d ++ '/' :: c).head? = d.head? := by
    intro c
    cases d with
    | nil => exact absurd rfl hd
    | cons x rest => rfl
  have hstep : ∀ (r : Bool) (c : List Char), c ≠ [] ∧ c ≠ ['.'] ∧ c ≠ ['.', '.'] ∧ '/' ∉ c →
      ((splitSlash (d ++ '/' :: c)).foldl (cleanStep r) []).reverse =
        ((splitSlash d).foldl (cleanStep r) []).reverse ++ [c] := by
    intro r c hc
    rw [splitSlash_append d c hc.2.2.2, List.foldl_append]
    simp [cleanStep, hc.1, hc.2.1, hc.2.2.1]
  simp only [cleanChars, List.append_eq_nil, hd, false_and, if_false, hhead,
    hstep _ a ha, hstep _ b hb] at h
  by_cases hr : d.head? = some '/'
  · simp only [hr, decide_True, if_true, List.cons.injEq, true_and] at h
    exact joinSlash_snoc_inj _ a b h
  · simp only [hr, decide_False, Bool.false_eq_true, if_false,
      joinSlash_snoc_ne_nil _ a ha.1, joinSlash_snoc_ne_nil _ b hb.1] at h
    exact joinSlash_snoc_inj _ a b h

theorem cleanChars_baseName (a : List Char)
    (ha : a ≠ [] ∧ a ≠ ['.'] ∧ a ≠ ['.', '.'] ∧ '/' ∉ a) : cleanChars a = a := by
  have hhead : a.head? ≠ some '/' := by
    cases a with
    | nil => simp
    | cons x rest =>
      simp only [List.mem_cons, not_or] at ha
      simp only [List.head?_cons, ne_eq, Option.some.injEq]
      exact fun hx => ha.2.2.2.1 hx.symm
  simp [cleanChars, ha.1, hhead, splitSlash_no_slash a ha.2.2.2, cleanStep, ha.2.1, ha.2.2.1,
    joinSlash]

/-- On base names `filepath.Join` is injective in its second element. -/
theorem unixJoin_baseNames (dir : String) (names : List String)
    (h : ∀ n ∈ names, isBaseName n = true) :
    ∀ a ∈ names, ∀ b ∈ names, unixJoin dir a = unixJoin dir b → a = b := by
  intro a ha b hb hab
  have pa := h a ha
  have pb := h b hb
  simp only [isBaseName, decide_eq_true_eq] at pa pb
  have hane : a ≠ "" := fun e => pa.1 (by rw [e])
  have hbne : b ≠ "" := fun e => pb.1 (by rw [e])
  apply String.ext
  by_cases hdir : dir = ""
  · simp only [unixJoin, hdir, if_true, hane, hbne, if_false, clean] at hab
    have hab := congrArg String.data hab
    simp only at hab
    rw [cleanChars_baseName a.data pa, cleanChars_baseName b.data pb] at hab
    exact hab
  · simp only [unixJoin, hdir, if_false, hane, hbne, clean, String.data_append] at hab
    have hab := congrArg String.data hab
    simp only at hab
    have hd : dir.data ≠ [] := fun e => hdir (String.ext (by rw [e]))
    have e1 : ∀ c : String, dir.data ++ "/".data ++ c.data = dir.data ++ '/' :: c.data := by
      intro c; simp
    rw [e1 a, e1 b] at hab
    exact cleanChars_snoc_inj dir.data a.data b.data pa pb hd hab

/-! ## Projections of traces -/

theorem createdFiles_append (a b : List Event) :
    createdFiles (a ++ b) = createdFiles a ++ createdFiles b := by
  induction a with
  | nil => rfl
  | cons e rest ih =>
    cases e with
    | create p ok => cases ok <;> simp [createdFiles, ih]
    | _ => simp [createdFiles, ih]

theorem createCalls_append (a b : List Event) :
    createCalls (a ++ b) = createCalls a ++ createCalls b := by
  induction a with
  | nil => rfl
  | cons e rest ih => cases e <;> simp [createCalls, ih]

theorem openCalls_append (a b : List Event) :
    openCalls (a ++ b) = openCalls a ++ openCalls b := by
  induction a with
  | nil => rfl
  | cons e rest ih => cases e <;> simp [openCalls, ih]

theorem mkdirCalls_append (a b : List Event) :
    mkdirCalls (a ++ b) = mkdirCalls a ++ mkdirCalls b := by
  induction a with
  | nil => rfl
  | cons e rest ih => cases e <;> simp [mkdirCalls, ih]

theorem closedLocal_append (a b : List Event) :
    closedLocal (a ++ b) = closedLocal a ++ closedLocal b := by
  induction a with
  | nil => rfl
  | cons e rest ih => cases e <;> simp [closedLocal, ih]

theorem newEvents_eq {w w1 : World} {evs : List Event} (h : w1.trace = w.trace ++ evs) :
    newEvents w w1 = evs := by
  simp [newEvents, h]

theorem opensFollowCreates_nil : OpensFollowCreates [] := by
  intro n; simp [openCalls, createdFiles]

theorem opensFollowCreates_append {a b : List Event} (ha : OpensFollowCreates a)
    (hb : OpensFollowCreates b) : OpensFollowCreates (a ++ b) := by
  intro n
  rw [List.take_append_eq_append_take, openCalls_append, createdFiles_append,
    List.length_append, List.length_append]
  exact Nat.add_le_add (ha n) (hb (n - a.length))

theorem opensFollowCreates_cons {e : Event} {evs : List Event} (he : openCalls [e] = [])
    (h : OpensFollowCreates evs) : OpensFollowCreates (e :: evs) := by
  have h1 : OpensFollowCreates [e] := by
    intro n
    cases n with
    | zero => simp [openCalls, createdFiles]
    | succ n => simp [he]
  exact opensFollowCreates_append h1 h

theorem opensFollowCreates_create_open (p q : String) (ok : Bool) {evs : List Event}
    (h : OpensFollowCreates evs) :
    OpensFollowCreates (Event.create p true :: Event.openRemote q ok :: evs) := by
  have h1 : OpensFollowCreates [Event.create p true, Event.openRemote q ok] := by
    intro n
    cases n with
    | zero => simp [openCalls, createdFiles]
    | succ n =>
      cases n with
      | zero => simp [openCalls, createdFiles]
      | succ n => simp [openCalls, createdFiles]
  exact opensFollowCreates_append h1 h

theorem opensFollowCreates_of_no_open {evs : List Event} (h : openCalls evs = []) :
    OpensFollowCreates evs := by
  intro n
  have h1 : openCalls (evs.take n ++ evs.drop n) = [] := by
    rw [List.take_append_drop]; exact h
  rw [openCalls_append] at h1
  rw [(List.append_eq_nil.mp h1).1]
  exact Nat.zero_le _

theorem createdFiles_foundEvents (files : List FileInfo) :
    createdFiles (foundEvents files) = [] := by
  induction files with
  | nil => rfl
  | cons f rest ih => cases hd : f.isDir <;> simp [foundEvents, hd, createdFiles, ih]

theorem createCalls_foundEvents (files : List FileInfo) :
    createCalls (foundEvents files) = [] := by
  induction files with
  | nil => rfl
  | cons f rest ih => cases hd : f.isDir <;> simp [foundEvents, hd, createCalls, ih]

theorem openCalls_foundEvents (files : List FileInfo) :
    openCalls (foundEvents files) = [] := by
  induction files with
  | nil => rfl
  | cons f rest ih => cases hd : f.isDir <;> simp [foundEvents, hd, openCalls, ih]

theorem mkdirCalls_foundEvents (files : List FileInfo) :
    mkdirCalls (foundEvents files) = [] := by
  induction files with
  | nil => rfl
  | cons f rest ih => cases hd : f.isDir <;> simp [foundEvents, hd, mkdirCalls, ih]

theorem closedLocal_foundEvents (files : List FileInfo) :
    closedLocal (foundEvents files) = [] := by
  induction files with
  | nil => rfl
  | cons f rest ih => cases hd : f.isDir <;> simp [foundEvents, hd, closedLocal, ih]

theorem createdFiles_closes (d : List String) :
    createdFiles (d.map Event.closeLocal) = [] := by
  induction d with
  | nil => rfl
  | cons p rest ih => simp [createdFiles, ih]

theorem createCalls_closes (d : List String) :
    createCalls (d.map Event.closeLocal) = [] := by
  induction d with
  | nil => rfl
  | cons p rest ih => simp [createCalls, ih]

theorem openCalls_closes (d : List String) :
    openCalls (d.map Event.closeLocal) = [] := by
  induction d with
  | nil => rfl
  | cons p rest ih => simp [openCalls, ih]

theorem mkdirCalls_closes (d : List String) :
    mkdirCalls (d.map Event.closeLocal) = [] := by
  induction d with
  | nil => rfl
  | cons p rest ih => simp [mkdirCalls, ih]

theorem closedLocal_closes (d : List String) :
    closedLocal (d.map Event.closeLocal) = d := by
  induction d with
  | nil => rfl
  | cons p rest ih => simp [closedLocal, ih]

/-! ## The first loop and the deferred calls -/

theorem logFound_spec (files : List FileInfo) :
    ∀ w : World, logFound files w = { w with trace := w.trace ++ foundEvents files } := by
  induction files with
  | nil => intro w; simp [logFound, foundEvents]
  | cons f rest ih =>
    intro w
    cases hd : f.isDir <;> simp [logFound, foundEvents, hd, ih, World.logln, World.emit]

theorem runDefers_spec (d : List String) :
    ∀ w : World,
      (runDefers d w).files = w.files ∧ (runDefers d w).dirs = w.dirs ∧
      (runDefers d w).trace = w.trace ++ d.map Event.closeLocal ∧
      (runDefers d w).connOpen = w.connOpen ∧ (runDefers d w).clientOpen = w.clientOpen ∧
      ∀ l, w.localOpen = d ++ l → (runDefers d w).localOpen = l := by
  induction d with
  | nil => intro w; simp [runDefers]
  | cons p rest ih =>
    intro w
    obtain ⟨h1, h2, h3, h4, h5, h6⟩ := ih (w.closeLocal p)
    refine ⟨?_, ?_, ?_, ?_, ?_, ?_⟩
    · simp only [runDefers]; rw [h1]; rfl
    · simp only [runDefers]; rw [h2]; rfl
    · simp only [runDefers]; rw [h3]; simp [World.closeLocal, World.emit]
    · simp only [runDefers]; rw [h4]; rfl
    · simp only [runDefers]; rw [h5]; rfl
    · intro l hl
      simp only [runDefers]
      apply h6
      simp [World.closeLocal, World.emit, hl]

/-! ## The copy loop -/

section Loop

variable (env : Env) (remoteDir dir : String)

theorem downloadLoop_append (pre suf : List FileInfo) :
    ∀ (i : Nat) (d : List String) (w : World) (d1 : List String) (w1 : World),
      downloadLoop env remoteDir dir i pre d w = (none, d1, w1) →
      downloadLoop env remoteDir dir i (pre ++ suf) d w =
        downloadLoop env remoteDir dir (i + pre.length) suf d1 w1 := by
  induction pre with
  | nil =>
    intro i d w d1 w1 h
    simp only [downloadLoop, Prod.mk.injEq, true_and] at h
    obtain ⟨rfl, rfl⟩ := h
    simp
  | cons f rest ih =>
    intro i d w d1 w1 h
    have hlen : i + (f :: rest).length = i + 1 + rest.length := by
      simp only [List.length_cons]; omega
    rw [hlen]
    simp only [List.cons_append, downloadLoop] at h ⊢
    cases hd : f.isDir with
    | true =>
      simp only [hd, Bool.not_true, Bool.false_eq_true, if_false] at h ⊢
      exact ih _ _ _ _ _ h
    | false =>
      simp only [hd, Bool.not_false, if_true] at h ⊢
      cases hc : env.create i (env.join dir f.name) with
      | some e => simp [hc] at h
      | none =>
        simp only [hc] at h ⊢
        cases ho : env.openErr i (env.join remoteDir f.name) with
        | some e => simp [ho] at h
        | none =>
          simp only [ho] at h ⊢
          cases hcp : env.copyErr i (env.join dir f.name) with
          | some r => simp [hcp] at h
          | none =>
            simp only [hcp] at h ⊢
            exact ih _ _ _ _ _ h

theorem entryErr_none {i : Nat} {f : FileInfo} (hd : f.isDir = false)
    (h : entryErr env remoteDir dir i f = none) :
    env.create i (env.join dir f.name) = none ∧
    env.openErr i (env.join remoteDir f.name) = none ∧
    env.copyErr i (env.join dir f.name) = none := by
  simp only [entryErr, hd, Bool.false_eq_true, if_false] at h
  cases hc : env.create i (env.join dir f.name) with
  | some e => simp [hc] at h
  | none =>
    cases ho : env.openErr i (env.join remoteDir f.name) with
    | some e => simp [hc, ho] at h
    | none =>
      cases hcp : env.copyErr i (env.join dir f.name) with
      | some r => simp [hc, ho, hcp] at h
      | none => exact ⟨rfl, rfl, rfl⟩

theorem fileNames_cons_dir {f : FileInfo} (rest : List FileInfo) (hd : f.isDir = true) :
    fileNames (f :: rest) = fileNames rest := by
  simp [fileNames, List.filter, hd]

theorem fileNames_cons_file {f : FileInfo} (rest : List FileInfo) (hd : f.isDir = false) :
    fileNames (f :: rest) = f.name :: fileNames rest := by
  simp [fileNames, List.filter, hd]

theorem fileNames_append (a b : List FileInfo) :
    fileNames (a ++ b) = fileNames a ++ fileNames b := by
  simp [fileNames]

/-- The copy loop over entries whose steps all succeed: it returns no error,
and the world it leaves is described field by field. -/
theorem downloadLoop_ok (files : List FileInfo) :
    ∀ (i : Nat) (d : List String) (w : World),
      stepsOk env remoteDir dir i files = true →
      ∃ w1 : World,
        downloadLoop env remoteDir dir i files d w =
          (none, ((fileNames files).map (env.join dir)).reverse ++ d, w1) ∧
        (∀ p, w1.files p = overlay (written env remoteDir dir files p) (w.files p)) ∧
        w1.dirs = w.dirs ∧
        w1.trace = w.trace ++ okEvents env remoteDir dir files ∧
        w1.localOpen = ((fileNames files).map (env.join dir)).reverse ++ w.localOpen ∧
        w1.connOpen = w.connOpen ∧ w1.clientOpen = w.clientOpen := by
  induction files with
  | nil =>
    intro i d w _
    exact ⟨w, by simp [downloadLoop, fileNames], by simp [written, overlay], rfl,
      by simp [okEvents], by simp [fileNames], rfl, rfl⟩
  | cons f rest ih =>
    intro i d w h
    simp only [stepsOk, Bool.and_eq_true, Option.isNone_iff_eq_none] at h
    obtain ⟨he, hrest⟩ := h
    cases hd : f.isDir with
    | true =>
      obtain ⟨w1, h1, h2, h3, h4, h5, h6, h7⟩ := ih (i + 1) d w hrest
      refine ⟨w1, ?_, ?_, h3, ?_, ?_, h6, h7⟩
      · simp only [downloadLoop, hd, Bool.not_true, Bool.false_eq_true, if_false]
        rw [h1, fileNames_cons_dir rest hd]
      · intro p
        rw [h2 p]
        cases hw : written env remoteDir dir rest p <;> simp [written, hd, hw, overlay]
      · rw [h4]; simp [okEvents, entryEvents, hd]
      · rw [h5, fileNames_cons_dir rest hd]
    | false =>
      obtain ⟨hc, ho, hcp⟩ := entryErr_none env remoteDir dir hd he
      obtain ⟨w1, h1, h2, h3, h4, h5, h6, h7⟩ := ih (i + 1) (env.join dir f.name :: d)
        (((((w.createOk (env.join dir f.name)).emit
          (Event.openRemote (env.join remoteDir f.name) true)).write (env.join dir f.name)
          (env.remoteContent (env.join remoteDir f.name))).emit
          (Event.copy (env.join remoteDir f.name) (env.join dir f.name) true)).emit
          (Event.closeRemote (env.join remoteDir f.name)) |>.logln
          ("Received '" ++ f.name ++ "'")) hrest
      refine ⟨w1, ?_, ?_, ?_, ?_, ?_, ?_, ?_⟩
      · simp only [downloadLoop, hd, Bool.not_false, if_true, hc, ho, hcp]
        rw [h1, fileNames_cons_file rest hd]
        simp
      · intro p
        rw [h2 p]
        simp only [written, hd, Bool.not_false, Bool.true_and, decide_eq_true_eq]
        cases written env remoteDir dir rest p with
        | some b => simp [overlay]
        | none =>
          by_cases hp : p = env.join dir f.name
          · simp [overlay, hp, World.logln, World.emit, World.setFile, World.createOk, World.write]
          · simp [overlay, hp, World.logln, World.emit, World.setFile, World.createOk, World.write]
      · rw [h3]; simp [World.logln, World.emit, World.setFile, World.createOk, World.write]
      · rw [h4]; simp [okEvents, entryEvents, hd, World.logln, World.emit, World.setFile,
          World.createOk, World.write]
      · rw [h5, fileNames_cons_file rest hd]
        simp [World.logln, World.emit, World.setFile, World.createOk, World.write]
      · rw [h6]; simp [World.logln, World.emit, World.setFile, World.createOk, World.write]
      · rw [h7]; simp [World.logln, World.emit, World.setFile, World.createOk, World.write]

/-- The copy loop in every outcome: what it can change and what it cannot. -/
theorem downloadLoop_frame (files : List FileInfo) :
    ∀ (i : Nat) (d : List String) (w : World),
      ∃ (hs : List String) (evs : List Event),
        (downloadLoop env remoteDir dir i files d w).2.1 = hs ++ d ∧
        (downloadLoop env remoteDir dir i files d w).2.2.localOpen = hs ++ w.localOpen ∧
        (downloadLoop env remoteDir dir i files d w).2.2.trace = w.trace ++ evs ∧
        (downloadLoop env remoteDir dir i files d w).2.2.dirs = w.dirs ∧
        (downloadLoop env remoteDir dir i files d w).2.2.connOpen = w.connOpen ∧
        (downloadLoop env remoteDir dir i files d w).2.2.clientOpen = w.clientOpen ∧
        createdFiles evs = hs.reverse ∧
        closedLocal evs = [] ∧ mkdirCalls evs = [] ∧ OpensFollowCreates evs := by
  induction files with
  | nil =>
    intro i d w
    exact ⟨[], [], by simp [downloadLoop], by simp [downloadLoop], by simp [downloadLoop],
      by simp [downloadLoop], by simp [downloadLoop], by simp [downloadLoop], rfl, rfl, rfl,
      opensFollowCreates_nil⟩
  | cons f rest ih =>
    intro i d w
    cases hd : f.isDir with
    | true =>
      simp only [downloadLoop, hd, Bool.not_true, Bool.false_eq_true, if_false]
      exact ih (i + 1) d w
    | false =>
      simp only [downloadLoop, hd, Bool.not_false, if_true]
      cases hc : env.create i (env.join dir f.name) with
      | some e =>
        refine ⟨[], [Event.create (env.join dir f.name) false,
          Event.log ("Error can not open local file: " ++ e)], ?_, ?_, ?_, ?_, ?_, ?_, ?_, ?_, ?_, ?_⟩
        · simp
        · simp [World.logln, World.emit]
        · simp [World.logln, World.emit]
        · simp [World.logln, World.emit]
        · simp [World.logln, World.emit]
        · simp [World.logln, World.emit]
        · simp [createdFiles]
        · simp [closedLocal]
        · simp [mkdirCalls]
        · exact opensFollowCreates_cons (by simp [openCalls])
            (opensFollowCreates_cons (by simp [openCalls]) opensFollowCreates_nil)
      | none =>
        simp only []
        cases ho : env.openErr i (env.join remoteDir f.name) with
        | some e =>
          refine ⟨[env.join dir f.name], [Event.create (env.join dir f.name) true,
            Event.openRemote (env.join remoteDir f.name) false,
            Event.log ("Error while receiving: " ++ e)], ?_, ?_, ?_, ?_, ?_, ?_, ?_, ?_, ?_, ?_⟩
          · simp
          · simp [World.logln, World.emit, World.createOk, World.setFile, World.write]
          · simp [World.logln, World.emit, World.createOk, World.setFile, World.write]
          · simp [World.logln, World.emit, World.createOk, World.setFile, World.write]
          · simp [World.logln, World.emit, World.createOk, World.setFile, World.write]
          · simp [World.logln, World.emit, World.createOk, World.setFile, World.write]
          · simp [createdFiles]
          · simp [closedLocal]
          · simp [mkdirCalls]
          · exact opensFollowCreates_create_open _ _ _
              (opensFollowCreates_cons (by simp [openCalls]) opensFollowCreates_nil)
        | none =>
          simp only []
          cases hcp : env.copyErr i (env.join dir f.name) with
          | some r =>
            obtain ⟨n, e⟩ := r
            refine ⟨[env.join dir f.name], [Event.create (env.join dir f.name) true,
              Event.openRemote (env.join remoteDir f.name) true,
              Event.copy (env.join remoteDir f.name) (env.join dir f.name) false,
              Event.log ("Error while receiving: " ++ e),
              Event.closeRemote (env.join remoteDir f.name)], ?_, ?_, ?_, ?_, ?_, ?_, ?_, ?_, ?_, ?_⟩
            · simp
            · simp [World.logln, World.emit, World.createOk, World.setFile, World.write]
            · simp [World.logln, World.emit, World.createOk, World.setFile, World.write]
            · simp [World.logln, World.emit, World.createOk, World.setFile, World.write]
            · simp [World.logln, World.emit, World.createOk, World.setFile, World.write]
            · simp [World.logln, World.emit, World.createOk, World.setFile, World.write]
            · simp [createdFiles]
            · simp [closedLocal]
            · simp [mkdirCalls]
            · exact opensFollowCreates_create_open _ _ _
                (opensFollowCreates_cons (by simp [openCalls])
                  (opensFollowCreates_cons (by simp [openCalls])
                    (opensFollowCreates_cons (by simp [openCalls]) opensFollowCreates_nil)))
          | none =>
            simp only []
            obtain ⟨hs, evs, h1, h2, h3, h4, h5, h6, hcf, h7, h8, h9⟩ :=
              ih (i + 1) (env.join dir f.name :: d)
                (((((w.createOk (env.join dir f.name)).emit
                  (Event.openRemote (env.join remoteDir f.name) true)).write
                  (env.join dir f.name) (env.remoteContent (env.join remoteDir f.name))).emit
                  (Event.copy (env.join remoteDir f.name) (env.join dir f.name) true)).emit
                  (Event.closeRemote (env.join remoteDir f.name)) |>.logln
                  ("Received '" ++ f.name ++ "'"))
            refine ⟨hs ++ [env.join dir f.name], [Event.create (env.join dir f.name) true,
              Event.openRemote (env.join remoteDir f.name) true,
              Event.copy (env.join remoteDir f.name) (env.join dir f.name) true,
              Event.closeRemote (env.join remoteDir f.name),
              Event.log ("Received '" ++ f.name ++ "'")] ++ evs, ?_, ?_, ?_, ?_, ?_, ?_, ?_, ?_, ?_, ?_⟩
            · rw [h1]; simp
            · rw [h2]; simp [World.logln, World.emit, World.createOk, World.setFile, World.write]
            · rw [h3]; simp [World.logln, World.emit, World.createOk, World.setFile, World.write]
            · rw [h4]; simp [World.logln, World.emit, World.createOk, World.setFile, World.write]
            · rw [h5]; simp [World.logln, World.emit, World.createOk, World.setFile, World.write]
            · rw [h6]; simp [World.logln, World.emit, World.createOk, World.setFile, World.write]
            · rw [createdFiles_append, hcf]; simp [createdFiles]
            · rw [closedLocal_append, h7]; simp [closedLocal]
            · rw [mkdirCalls_append, h8]; simp [mkdirCalls]
            · exact opensFollowCreates_create_open _ _ _
                (opensFollowCreates_cons (by simp [openCalls])
                  (opensFollowCreates_cons (by simp [openCalls])
                    (opensFollowCreates_cons (by simp [openCalls]) h9)))

theorem createdFiles_okEvents (files : List FileInfo) :
    createdFiles (okEvents env remoteDir dir files) = (fileNames files).map (env.join dir) := by
  induction files with
  | nil => rfl
  | cons f rest ih =>
    cases hd : f.isDir with
    | true => simp [okEvents, entryEvents, hd, ih, fileNames_cons_dir rest hd]
    | false =>
      simp [okEvents, entryEvents, hd, ih, fileNames_cons_file rest hd, createdFiles]

theorem createCalls_okEvents (files : List FileInfo) :
    createCalls (okEvents env remoteDir dir files) = (fileNames files).map (env.join dir) := by
  induction files with
  | nil => rfl
  | cons f rest ih =>
    cases hd : f.isDir with
    | true => simp [okEvents, entryEvents, hd, ih, fileNames_cons_dir rest hd]
    | false =>
      simp [okEvents, entryEvents, hd, ih, fileNames_cons_file rest hd, createCalls]

theorem openCalls_okEvents (files : List FileInfo) :
    openCalls (okEvents env remoteDir dir files) =
      (fileNames files).map (env.join remoteDir) := by
  induction files with
  | nil => rfl
  | cons f rest ih =>
    cases hd : f.isDir with
    | true => simp [okEvents, entryEvents, hd, ih, fileNames_cons_dir rest hd]
    | false =>
      simp [okEvents, entryEvents, hd, ih, fileNames_cons_file rest hd, openCalls]

theorem mkdirCalls_okEvents (files : List FileInfo) :
    mkdirCalls (okEvents env remoteDir dir files) = [] := by
  induction files with
  | nil => rfl
  | cons f rest ih =>
    cases hd : f.isDir <;> simp [okEvents, entryEvents, hd, ih, mkdirCalls]

theorem closedLocal_okEvents (files : List FileInfo) :
    closedLocal (okEvents env remoteDir dir files) = [] := by
  induction files with
  | nil => rfl
  | cons f rest ih =>
    cases hd : f.isDir <;> simp [okEvents, entryEvents, hd, ih, closedLocal]

theorem written_none (files : List FileInfo) (p : String)
    (h : p ∉ (fileNames files).map (env.join dir)) :
    written env remoteDir dir files p = none := by
  induction files with
  | nil => rfl
  | cons f rest ih =>
    cases hd : f.isDir with
    | true =>
      rw [fileNames_cons_dir rest hd] at h
      simp [written, hd, ih h]
    | false =>
      rw [fileNames_cons_file rest hd] at h
      simp only [List.map_cons, List.mem_cons, not_or] at h
      simp [written, hd, ih h.2, h.1]

theorem written_some (files : List FileInfo) (name : String)
    (hinj : ∀ a ∈ fileNames files, ∀ b ∈ fileNames files,
      env.join dir a = env.join dir b → a = b)
    (h : name ∈ fileNames files) :
    written env remoteDir dir files (env.join dir name) =
      some (env.remoteContent (env.join remoteDir name)) := by
  induction files with
  | nil => simp [fileNames] at h
  | cons f rest ih =>
    cases hd : f.isDir with
    | true =>
      rw [fileNames_cons_dir rest hd] at h hinj
      simp [written, hd, ih hinj h]
    | false =>
      rw [fileNames_cons_file rest hd] at h hinj
      have hinj1 : ∀ a ∈ fileNames rest, ∀ b ∈ fileNames rest,
          env.join dir a = env.join dir b → a = b :=
        fun a ha b hb => hinj a (List.mem_cons_of_mem _ ha) b (List.mem_cons_of_mem _ hb)
      by_cases hmem : name ∈ fileNames rest
      · simp [written, hd, ih hinj1 hmem]
      · have hname : name = f.name := by
          rcases List.mem_cons.mp h with h1 | h1
          · exact h1
          · exact absurd h1 hmem
        have hnot : env.join dir name ∉ (fileNames rest).map (env.join dir) := by
          intro hc
          obtain ⟨b, hb, hbe⟩ := List.mem_map.mp hc
          have := hinj b (List.mem_cons_of_mem _ hb) name h hbe
          exact hmem (this ▸ hb)
        subst hname
        simp [written, hd, written_none env remoteDir dir rest _ hnot]

/-- A destination path of the listing holds the remote content of an entry
mapped to it. -/
theorem written_mem (files : List FileInfo) (p : String)
    (hp : p ∈ (fileNames files).map (env.join dir)) :
    ∃ name ∈ fileNames files, env.join dir name = p ∧
      written env remoteDir dir files p =
        some (env.remoteContent (env.join remoteDir name)) := by
  induction files with
  | nil => simp [fileNames] at hp
  | cons f rest ih =>
    by_cases hrest : p ∈ (fileNames rest).map (env.join dir)
    · obtain ⟨name, hname, hpath, hw⟩ := ih hrest
      refine ⟨name, ?_, hpath, by simp [written, hw]⟩
      cases hd : f.isDir with
      | true => rw [fileNames_cons_dir rest hd]; exact hname
      | false => rw [fileNames_cons_file rest hd]; exact List.mem_cons_of_mem _ hname
    · cases hd : f.isDir with
      | true =>
        rw [fileNames_cons_dir rest hd] at hp
        exact absurd hp hrest
      | false =>
        rw [fileNames_cons_file rest hd] at hp
        simp only [List.map_cons, List.mem_cons] at hp
        rcases hp with hp | hp
        · subst hp
          refine ⟨f.name, ?_, rfl, ?_⟩
          · rw [fileNames_cons_file rest hd]; exact List.mem_cons_self _ _
          · simp [written, hd, written_none env remoteDir dir rest _ hrest]
        · exact absurd hp hrest

/-- The last entry written to a path decides its content. -/
theorem written_last (pre : List FileInfo) (f : FileInfo) (suf : List FileInfo)
    (hd : f.isDir = false)
    (hlast : env.join dir f.name ∉ (fileNames suf).map (env.join dir)) :
    written env remoteDir dir (pre ++ f :: suf) (env.join dir f.name) =
      some (env.remoteContent (env.join remoteDir f.name)) := by
  induction pre with
  | nil => simp [written, hd, written_none env remoteDir dir suf _ hlast]
  | cons x rest ih => simp [written, ih]

/-- The loop body for a non-directory entry one of whose steps fails: the loop
returns that error, and later entries are not looked at. -/
theorem downloadLoop_step_fail (f : FileInfo) (suf : List FileInfo) (i : Nat) (e : Err)
    (hd : f.isDir = false) (hfail : entryErr env remoteDir dir i f = some e)
    (d : List String) (w : World) :
    ∃ w1 : World,
      downloadLoop env remoteDir dir i (f :: suf) d w =
        (some e, failDefers env dir i f ++ d, w1) ∧
      w1.files = failFiles env remoteDir dir i f w.files ∧
      w1.dirs = w.dirs ∧
      w1.trace = w.trace ++ failEvents env remoteDir dir i f ∧
      w1.localOpen = failDefers env dir i f ++ w.localOpen ∧
      w1.connOpen = w.connOpen ∧ w1.clientOpen = w.clientOpen := by
  simp only [entryErr, hd, Bool.false_eq_true, if_false] at hfail
  simp only [downloadLoop, hd, Bool.not_false, if_true, failDefers, failFiles, failEvents]
  cases hc : env.create i (env.join dir f.name) with
  | some e1 =>
    simp only [hc, Option.some.injEq] at hfail
    subst hfail
    exact ⟨_, rfl, by simp [World.logln, World.emit], by simp [World.logln, World.emit],
      by simp [World.logln, World.emit], by simp [World.logln, World.emit],
      by simp [World.logln, World.emit], by simp [World.logln, World.emit]⟩
  | none =>
    simp only [hc] at hfail
    cases ho : env.openErr i (env.join remoteDir f.name) with
    | some e1 =>
      simp only [ho, Option.some.injEq] at hfail
      subst hfail
      refine ⟨_, rfl, ?_, ?_, ?_, ?_, ?_, ?_⟩ <;>
        simp [World.logln, World.emit, World.createOk, World.setFile, World.write]
    | none =>
      simp only [ho] at hfail
      cases hcp : env.copyErr i (env.join dir f.name) with
      | none => simp [hcp] at hfail
      | some r =>
        obtain ⟨n, e1⟩ := r
        simp only [hcp, Option.map_some', Option.some.injEq] at hfail
        subst hfail
        refine ⟨_, rfl, ?_, ?_, ?_, ?_, ?_, ?_⟩
        · funext q
          by_cases hq : q = env.join dir f.name <;>
            simp [World.logln, World.emit, World.createOk, World.setFile, World.write, hq]
        all_goals simp [World.logln, World.emit, World.createOk, World.setFile, World.write]

theorem failEvents_calls (f : FileInfo) (i : Nat) (e : Err)
    (hd : f.isDir = false) (hfail : entryErr env remoteDir dir i f = some e) :
    createCalls (failEvents env remoteDir dir i f) = [env.join dir f.name] ∧
    createdFiles (failEvents env remoteDir dir i f) = failDefers env dir i f ∧
    openCalls (failEvents env remoteDir dir i f) =
      (failDefers env dir i f).map (fun _ => env.join remoteDir f.name) ∧
    mkdirCalls (failEvents env remoteDir dir i f) = [] ∧
    closedLocal (failEvents env remoteDir dir i f) = [] := by
  simp only [entryErr, hd, Bool.false_eq_true, if_false] at hfail
  simp only [failEvents, failDefers]
  cases hc : env.create i (env.join dir f.name) with
  | some e1 => simp [createCalls, createdFiles, openCalls, mkdirCalls, closedLocal]
  | none =>
    simp only [hc] at hfail
    cases ho : env.openErr i (env.join remoteDir f.name) with
    | some e1 => simp [createCalls, createdFiles, openCalls, mkdirCalls, closedLocal]
    | none =>
      simp only [ho] at hfail
      cases hcp : env.copyErr i (env.join dir f.name) with
      | none => simp [hcp] at hfail
      | some r =>
        obtain ⟨n, e1⟩ := r
        simp [createCalls, createdFiles, openCalls, mkdirCalls, closedLocal]

end Loop

/-! ## The method `download` -/

theorem download_listed (env : Env) (tr : Transfer) (w : World) (files : List FileInfo)
    (hlist : env.readDir tr.RemoteDir = Except.ok files)
    (hmk : (env.mkdirAll (datedDir env tr)).err = none) :
    download env tr w =
      ((downloadLoop env tr.RemoteDir (datedDir env tr) 0 files [] (loopStart env tr files w)).1,
        runDefers
          (downloadLoop env tr.RemoteDir (datedDir env tr) 0 files []
            (loopStart env tr files w)).2.1
          (downloadLoop env tr.RemoteDir (datedDir env tr) 0 files []
            (loopStart env tr files w)).2.2) := by
  simp only [datedDir] at hmk
  simp only [download, hlist, hmk, loopStart, datedDir]

theorem loopStart_spec (env : Env) (tr : Transfer) (w : World) (files : List FileInfo)
    (hmk : (env.mkdirAll (datedDir env tr)).err = none) :
    (loopStart env tr files w).files = w.files ∧
    (loopStart env tr files w).dirs (datedDir env tr) = true ∧
    (loopStart env tr files w).trace = w.trace ++ startEvents env tr files ∧
    (loopStart env tr files w).localOpen = w.localOpen ∧
    (loopStart env tr files w).connOpen = w.connOpen ∧
    (loopStart env tr files w).clientOpen = w.clientOpen := by
  simp [loopStart, logFound_spec, World.mkdirAll, World.logln, World.emit, hmk, startEvents]

theorem createdFiles_startEvents (env : Env) (tr : Transfer) (files : List FileInfo) :
    createdFiles (startEvents env tr files) = [] := by
  simp [startEvents, createdFiles, createdFiles_append, createdFiles_foundEvents]

theorem createCalls_startEvents (env : Env) (tr : Transfer) (files : List FileInfo) :
    createCalls (startEvents env tr files) = [] := by
  simp [startEvents, createCalls, createCalls_append, createCalls_foundEvents]

theorem openCalls_startEvents (env : Env) (tr : Transfer) (files : List FileInfo) :
    openCalls (startEvents env tr files) = [] := by
  simp [startEvents, openCalls, openCalls_append, openCalls_foundEvents]

theorem mkdirCalls_startEvents (env : Env) (tr : Transfer) (files : List FileInfo) :
    mkdirCalls (startEvents env tr files) = [datedDir env tr] := by
  simp [startEvents, mkdirCalls, mkdirCalls_append, mkdirCalls_foundEvents]

theorem closedLocal_startEvents (env : Env) (tr : Transfer) (files : List FileInfo) :
    closedLocal (startEvents env tr files) = [] := by
  simp [startEvents, closedLocal, closedLocal_append, closedLocal_foundEvents]

/-- A run of `download` in which the listing, the directory creation and every
step of the copy loop succeed: the result and the final world. -/
theorem download_ok (env : Env) (tr : Transfer) (w : World) (files : List FileInfo)
    (hlist : env.readDir tr.RemoteDir = Except.ok files)
    (hmk : (env.mkdirAll (datedDir env tr)).err = none)
    (hsteps : stepsOk env tr.RemoteDir (datedDir env tr) 0 files = true) :
    (download env tr w).1 = none ∧
    (∀ p, (download env tr w).2.files p =
      overlay (written env tr.RemoteDir (datedDir env tr) files p) (w.files p)) ∧
    (download env tr w).2.dirs = (loopStart env tr files w).dirs ∧
    (download env tr w).2.trace = w.trace ++ (startEvents env tr files ++
      (okEvents env tr.RemoteDir (datedDir env tr) files ++
        (((fileNames files).map (env.join (datedDir env tr))).reverse.map Event.closeLocal))) ∧
    (download env tr w).2.localOpen = w.localOpen ∧
    (download env tr w).2.connOpen = w.connOpen ∧
    (download env tr w).2.clientOpen = w.clientOpen := by
  obtain ⟨w1, h1, h2, h3, h4, h5, h6, h7⟩ :=
    downloadLoop_ok env tr.RemoteDir (datedDir env tr) files 0 [] (loopStart env tr files w) hsteps
  obtain ⟨s1, _, s3, s4, s5, s6⟩ := loopStart_spec env tr w files hmk
  rw [download_listed env tr w files hlist hmk, h1]
  obtain ⟨r1, r2, r3, r4, r5, r6⟩ :=
    runDefers_spec (((fileNames files).map (env.join (datedDir env tr))).reverse ++ []) w1
  refine ⟨rfl, ?_, ?_, ?_, ?_, ?_, ?_⟩
  · intro p
    simp only []
    rw [r1, h2 p, s1]
  · simp only []
    rw [r2, h3]
  · simp only []
    rw [r3, h4, s3]
    simp
  · simp only []
    apply r6
    rw [h5, s4]
    simp
  · simp only []
    rw [r4, h6, s5]
  · simp only []
    rw [r5, h7, s6]

/-- A run of `download` in which the listing and the directory creation
succeed, every step of the entries `pre` succeeds, and a step of the
non-directory entry `f` after them fails: the result and the final world. -/
theorem download_fail (env : Env) (tr : Transfer) (w : World)
    (pre : List FileInfo) (f : FileInfo) (suf : List FileInfo) (e : Err)
    (hlist : env.readDir tr.RemoteDir = Except.ok (pre ++ f :: suf))
    (hmk : (env.mkdirAll (datedDir env tr)).err = none)
    (hpre : stepsOk env tr.RemoteDir (datedDir env tr) 0 pre = true)
    (hd : f.isDir = false)
    (hfail : entryErr env tr.RemoteDir (datedDir env tr) pre.length f = some e) :
    (download env tr w).1 = some e ∧
    (download env tr w).2.files =
      failFiles env tr.RemoteDir (datedDir env tr) pre.length f
        (fun p => overlay (written env tr.RemoteDir (datedDir env tr) pre p) (w.files p)) ∧
    (download env tr w).2.dirs = (loopStart env tr (pre ++ f :: suf) w).dirs ∧
    (download env tr w).2.trace = w.trace ++ (startEvents env tr (pre ++ f :: suf) ++
      (okEvents env tr.RemoteDir (datedDir env tr) pre ++
        (failEvents env tr.RemoteDir (datedDir env tr) pre.length f ++
          (failDefers env (datedDir env tr) pre.length f ++
            ((fileNames pre).map (env.join (datedDir env tr))).reverse).map
              Event.closeLocal))) ∧
    (download env tr w).2.localOpen = w.localOpen ∧
    (download env tr w).2.connOpen = w.connOpen ∧
    (download env tr w).2.clientOpen = w.clientOpen := by
  obtain ⟨w1, h1, h2, h3, h4, h5, h6, h7⟩ :=
    downloadLoop_ok env tr.RemoteDir (datedDir env tr) pre 0 []
      (loopStart env tr (pre ++ f :: suf) w) hpre
  obtain ⟨w2, g1, g2, g3, g4, g5, g6, g7⟩ :=
    downloadLoop_step_fail env tr.RemoteDir (datedDir env tr) f suf pre.length e hd hfail
      (((fileNames pre).map (env.join (datedDir env tr))).reverse ++ []) w1
  have hloop := downloadLoop_append env tr.RemoteDir (datedDir env tr) pre (f :: suf) 0 []
    (loopStart env tr (pre ++ f :: suf) w) _ _ h1
  rw [Nat.zero_add, g1] at hloop
  obtain ⟨s1, _, s3, s4, s5, s6⟩ := loopStart_spec env tr w (pre ++ f :: suf) hmk
  rw [download_listed env tr w (pre ++ f :: suf) hlist hmk, hloop]
  obtain ⟨r1, r2, r3, r4, r5, r6⟩ :=
    runDefers_spec (failDefers env (datedDir env tr) pre.length f ++
      (((fileNames pre).map (env.join (datedDir env tr))).reverse ++ [])) w2
  have hfiles : w1.files =
      fun p => overlay (written env tr.RemoteDir (datedDir env tr) pre p) (w.files p) := by
    funext p
    rw [h2 p, s1]
  refine ⟨rfl, ?_, ?_, ?_, ?_, ?_, ?_⟩
  · show (runDefers _ w2).files = _
    rw [r1, g2, hfiles]
  · show (runDefers _ w2).dirs = _
    rw [r2, g3, h3]
  · show (runDefers _ w2).trace = _
    rw [r3, g4, h4, s3]
    simp
  · show (runDefers _ w2).localOpen = _
    apply r6
    rw [g5, h5, s4]
    simp
  · show (runDefers _ w2).connOpen = _
    rw [r4, g6, h6, s5]
  · show (runDefers _ w2).clientOpen = _
    rw [r5, g7, h7, s6]

/-- A run of `download` in every outcome: the local handles open afterwards are
those open before, every file it created has been closed, last created first,
and no remote open comes before its create. -/
theorem download_frame (env : Env) (tr : Transfer) (w : World) :
    ∃ evs : List Event,
      (download env tr w).2.trace = w.trace ++ evs ∧
      (download env tr w).2.localOpen = w.localOpen ∧
      (download env tr w).2.connOpen = w.connOpen ∧
      (download env tr w).2.clientOpen = w.clientOpen ∧
      closedLocal evs = (createdFiles evs).reverse ∧
      OpensFollowCreates evs := by
  cases hlist : env.readDir tr.RemoteDir with
  | error e =>
    refine ⟨[Event.readDir tr.RemoteDir false, Event.log ("Error while receiving: " ++ e)],
      ?_, ?_, ?_, ?_, ?_, ?_⟩
    · simp [download, hlist, World.logln, World.emit]
    · simp [download, hlist, World.logln, World.emit]
    · simp [download, hlist, World.logln, World.emit]
    · simp [download, hlist, World.logln, World.emit]
    · simp [closedLocal, createdFiles]
    · exact opensFollowCreates_of_no_open (by simp [openCalls])
  | ok files =>
    cases hmk : (env.mkdirAll (datedDir env tr)).err with
    | some e =>
      have hmk1 : (env.mkdirAll (env.join tr.LocalDir env.today)).err = some e := hmk
      refine ⟨Event.readDir tr.RemoteDir true :: foundEvents files ++
        [Event.mkdirAll (datedDir env tr) false], ?_, ?_, ?_, ?_, ?_, ?_⟩
      · simp [download, hlist, hmk1, World.mkdirAll, World.emit, logFound_spec, datedDir]
      · simp [download, hlist, hmk1, World.mkdirAll, World.emit, logFound_spec]
      · simp [download, hlist, hmk1, World.mkdirAll, World.emit, logFound_spec]
      · simp [download, hlist, hmk1, World.mkdirAll, World.emit, logFound_spec]
      · rw [List.cons_append, ← List.singleton_append, closedLocal_append, closedLocal_append,
          createdFiles_append, createdFiles_append, closedLocal_foundEvents,
          createdFiles_foundEvents]
        simp [closedLocal, createdFiles]
      · apply opensFollowCreates_of_no_open
        rw [List.cons_append, ← List.singleton_append, openCalls_append, openCalls_append,
          openCalls_foundEvents]
        simp [openCalls]
    | none =>
      obtain ⟨hs, evs, h1, h2, h3, _, h5, h6, hcf, h7, _, h9⟩ :=
        downloadLoop_frame env tr.RemoteDir (datedDir env tr) files 0 []
          (loopStart env tr files w)
      obtain ⟨_, _, s3, s4, s5, s6⟩ := loopStart_spec env tr w files hmk
      obtain ⟨_, _, r3, r4, r5, r6⟩ := runDefers_spec
        (downloadLoop env tr.RemoteDir (datedDir env tr) 0 files []
          (loopStart env tr files w)).2.1
        (downloadLoop env tr.RemoteDir (datedDir env tr) 0 files []
          (loopStart env tr files w)).2.2
      rw [download_listed env tr w files hlist hmk]
      refine ⟨startEvents env tr files ++ (evs ++ hs.map Event.closeLocal),
        ?_, ?_, ?_, ?_, ?_, ?_⟩
      · show (runDefers _ _).trace = _
        rw [r3, h3, s3, h1]
        simp
      · show (runDefers _ _).localOpen = _
        apply r6
        rw [h2, h1, s4]
        simp
      · show (runDefers _ _).connOpen = _
        rw [r4, h5, s5]
      · show (runDefers _ _).clientOpen = _
        rw [r5, h6, s6]
      · rw [closedLocal_append, closedLocal_append, createdFiles_append, createdFiles_append,
          closedLocal_startEvents, createdFiles_startEvents, h7, hcf, closedLocal_closes,
          createdFiles_closes]
        simp
      · apply opensFollowCreates_append
          (opensFollowCreates_of_no_open (openCalls_startEvents env tr files))
        exact opensFollowCreates_append h9
          (opensFollowCreates_of_no_open (openCalls_closes hs))

/-! ## The method `connect` and the function `main` -/

theorem connect_auths (b : Bool) (pw : String) :
    (if pw ≠ "" then
      (if b = true then ([] : List AuthMethod) ++ [AuthMethod.publicKeysCallback] else []) ++
        [AuthMethod.password pw]
    else (if b = true then ([] : List AuthMethod) ++ [AuthMethod.publicKeysCallback] else [])) =
    specAuths b pw := by
  cases b <;> by_cases h : pw = "" <;> simp [specAuths, h]

/-- The method `connect`, outcome by outcome, with the auth method list of the
specification. -/
theorem connect_spec (env : Env) (tr : Transfer) (w : World) :
    connect env tr w =
      match env.sshDial tr.addr tr.Username (specAuths env.agentDial tr.Password) with
      | some e =>
        (some e, { w with trace := w.trace ++
          [Event.agentDial env.agentDial,
           Event.sshDial tr.addr tr.Username (specAuths env.agentDial tr.Password) false,
           Event.log ("Error unable to connect to [" ++ tr.addr ++ "]: " ++ e)] })
      | none =>
        match env.sftpNewClient with
        | some e =>
          (some e, { w with
            trace := w.trace ++
              [Event.agentDial env.agentDial,
               Event.sshDial tr.addr tr.Username (specAuths env.agentDial tr.Password) true,
               Event.sftpNewClient false,
               Event.log ("Error unable to start sftp subsystem: " ++ e)]
            connOpen := true })
        | none =>
          (none, { w with
            trace := w.trace ++
              [Event.agentDial env.agentDial,
               Event.sshDial tr.addr tr.Username (specAuths env.agentDial tr.Password) true,
               Event.sftpNewClient true]
            connOpen := true
            clientOpen := true }) := by
  simp only [connect, connect_auths, Transfer.addr]
  cases hdial : env.sshDial (tr.Server ++ ":" ++ toString tr.Port) tr.Username
      (specAuths env.agentDial tr.Password) with
  | some e => simp [World.logln, World.emit]
  | none =>
    cases hs : env.sftpNewClient with
    | some e => simp [World.logln, World.emit]
    | none => simp [World.logln, World.emit]

/-- The method `connect` in every outcome: it touches no local file, directory
or local handle, and adds no create and no close of a local file. -/
theorem connect_frame (env : Env) (tr : Transfer) (w : World) :
    ∃ evs : List Event,
      (connect env tr w).2.trace = w.trace ++ evs ∧
      (connect env tr w).2.files = w.files ∧
      (connect env tr w).2.dirs = w.dirs ∧
      (connect env tr w).2.localOpen = w.localOpen ∧
      createdFiles evs = [] ∧ closedLocal evs = [] ∧ mkdirCalls evs = [] ∧
      dialCalls evs = [(tr.addr, tr.Username, specAuths env.agentDial tr.Password)] := by
  rw [connect_spec]
  cases hdial : env.sshDial tr.addr tr.Username (specAuths env.agentDial tr.Password) with
  | some e =>
    exact ⟨_, rfl, rfl, rfl, rfl, by simp [createdFiles], by simp [closedLocal],
      by simp [mkdirCalls], by simp [dialCalls]⟩
  | none =>
    cases hs : env.sftpNewClient with
    | some e =>
      exact ⟨_, rfl, rfl, rfl, rfl, by simp [createdFiles], by simp [closedLocal],
        by simp [mkdirCalls], by simp [dialCalls]⟩
    | none =>
      exact ⟨_, rfl, rfl, rfl, rfl, by simp [createdFiles], by simp [closedLocal],
        by simp [mkdirCalls], by simp [dialCalls]⟩

theorem main_connect_error (env : Env) (tr : Transfer) (w : World) (e : Err)
    (h : (connected env tr w).1 = some e) :
    main env (Flags.parsed tr) w = (fatal e (connected env tr w).2, 1) := by
  simp only [connected] at h
  simp only [main, connected]
  cases hc : connect env tr (w.logln ("Connecting: " ++ tr.Server)) with
  | mk r w1 =>
    rw [hc] at h
    simp only at h
    subst h
    rfl

theorem main_download_error (env : Env) (tr : Transfer) (w : World) (e : Err)
    (hc : (connected env tr w).1 = none)
    (h : (download env tr (connected env tr w).2).1 = some e) :
    main env (Flags.parsed tr) w = (fatal e (download env tr (connected env tr w).2).2, 1) := by
  simp only [connected] at h hc
  simp only [main, connected]
  cases hcw : connect env tr (w.logln ("Connecting: " ++ tr.Server)) with
  | mk r w1 =>
    rw [hcw] at h hc
    simp only at h hc
    subst hc
    cases hdw : download env tr w1 with
    | mk r2 w2 =>
      rw [hdw] at h
      simp only at h
      subst h
      simp [hdw]

theorem main_success (env : Env) (tr : Transfer) (w : World)
    (hc : (connected env tr w).1 = none)
    (h : (download env tr (connected env tr w).2).1 = none) :
    main env (Flags.parsed tr) w =
      ({ (download env tr (connected env tr w).2).2 with
          trace := (download env tr (connected env tr w).2).2.trace ++
            [Event.log "Backup done.", Event.closeConn, Event.closeClient, Event.exit 0]
          connOpen := false
          clientOpen := false }, 0) := by
  simp only [connected] at h hc
  simp only [main, connected]
  cases hcw : connect env tr (w.logln ("Connecting: " ++ tr.Server)) with
  | mk r w1 =>
    rw [hcw] at h hc
    simp only at h hc
    subst hc
    cases hdw : download env tr w1 with
    | mk r2 w2 =>
      rw [hdw] at h
      simp only at h
      subst h
      simp [hdw, World.logln, World.emit]

/-! ## The claims -/

/-- C1, as the claim words it, fails on the listing of the two distinct names
`a` and `./a`: every step succeeds and `download` returns no error, yet both
entries are created at one path, so one local file exists for N = 2 entries. -/
theorem download_distinct_names_one_file :
    (fileNames [⟨"a", false⟩, ⟨"./a", false⟩]).Nodup ∧
    stepsOk envDotSlash tr0.RemoteDir (datedDir envDotSlash tr0) 0
      [⟨"a", false⟩, ⟨"./a", false⟩] = true ∧
    (download envDotSlash tr0 w0).1 = none ∧
    ([⟨"a", false⟩, ⟨"./a", false⟩].filter (fun f : FileInfo => !f.isDir)).length = 2 ∧
    createdFiles (newEvents w0 (download envDotSlash tr0 w0).2) =
      ["backup/2026-11-04/a", "backup/2026-11-04/a"] ∧
    (createdFiles (newEvents w0 (download envDotSlash tr0 w0).2)).dedup.length = 1 := by
  decide

/-- C1, amended: when the listing, the creation of the dated directory and
every create, open and copy step succeed, on a listing whose non-directory
entries have pairwise distinct destination paths (the entry name joined to the
dated directory), `download` returns no error; the dated directory exists; the
files created are exactly those of the non-directory entries, one each, at the
entry name joined to the dated directory; each holds the content of the remote
file at the entry name joined to the remote directory; no other local file
changes and the dated directory is the only directory creation; with no
non-directory entry the local files are untouched. -/
theorem download_copies_every_file (env : Env) (tr : Transfer) (w : World)
    (files : List FileInfo)
    (hlist : env.readDir tr.RemoteDir = Except.ok files)
    (hmk : (env.mkdirAll (datedDir env tr)).err = none)
    (hsteps : stepsOk env tr.RemoteDir (datedDir env tr) 0 files = true)
    (hpaths : ((fileNames files).map (env.join (datedDir env tr))).Nodup) :
    (download env tr w).1 = none ∧
    (download env tr w).2.dirs (datedDir env tr) = true ∧
    createdFiles (newEvents w (download env tr w).2) =
      (fileNames files).map (env.join (datedDir env tr)) ∧
    createCalls (newEvents w (download env tr w).2) =
      (fileNames files).map (env.join (datedDir env tr)) ∧
    (createdFiles (newEvents w (download env tr w).2)).Nodup ∧
    (createdFiles (newEvents w (download env tr w).2)).length =
      (files.filter (fun f => !f.isDir)).length ∧
    (∀ name ∈ fileNames files,
      (download env tr w).2.files (env.join (datedDir env tr) name) =
        some (env.remoteContent (env.join tr.RemoteDir name))) ∧
    (∀ p, p ∉ (fileNames files).map (env.join (datedDir env tr)) →
      (download env tr w).2.files p = w.files p) ∧
    mkdirCalls (newEvents w (download env tr w).2) = [datedDir env tr] ∧
    (fileNames files = [] → (download env tr w).2.files = w.files) := by
  obtain ⟨h1, h2, h3, h4, _, _, _⟩ := download_ok env tr w files hlist hmk hsteps
  have hjoin : ∀ a ∈ fileNames files, ∀ b ∈ fileNames files,
      env.join (datedDir env tr) a = env.join (datedDir env tr) b → a = b :=
    fun a ha b hb hab => List.inj_on_of_nodup_map hpaths ha hb hab
  have hnew := newEvents_eq h4
  have hcreated : createdFiles (newEvents w (download env tr w).2) =
      (fileNames files).map (env.join (datedDir env tr)) := by
    rw [hnew, createdFiles_append, createdFiles_append, createdFiles_startEvents,
      createdFiles_okEvents, createdFiles_closes, List.nil_append, List.append_nil]
  refine ⟨h1, ?_, hcreated, ?_, ?_, ?_, ?_, ?_, ?_, ?_⟩
  · rw [h3]
    exact (loopStart_spec env tr w files hmk).2.1
  · rw [hnew, createCalls_append, createCalls_append, createCalls_startEvents,
      createCalls_okEvents, createCalls_closes, List.nil_append, List.append_nil]
  · rw [hcreated]
    exact hpaths
  · rw [hcreated]
    simp [fileNames]
  · intro name hname
    rw [h2, written_some env tr.RemoteDir (datedDir env tr) files name hjoin hname]
    rfl
  · intro p hp
    rw [h2, written_none env tr.RemoteDir (datedDir env tr) files p hp]
    rfl
  · rw [hnew, mkdirCalls_append, mkdirCalls_append, mkdirCalls_startEvents,
      mkdirCalls_okEvents, mkdirCalls_closes, List.append_nil, List.append_nil]
  · intro hnil
    funext p
    rw [h2, written_none env tr.RemoteDir (datedDir env tr) files p (by simp [hnil])]
    rfl

/-- C1, amended, at `envOk` over `wOld`: two files around a directory; the run
succeeds and `a`, which held a longer earlier copy, holds the remote bytes. -/
theorem download_copies_every_file_witness :
    (download envOk tr0 wOld).1 = none ∧
    wOld.files (envOk.join (datedDir envOk tr0) "a") = some [9, 9, 9, 9, 9] ∧
    (download envOk tr0 wOld).2.files (envOk.join (datedDir envOk tr0) "a") =
      some (envOk.remoteContent (envOk.join tr0.RemoteDir "a")) ∧
    createdFiles (newEvents wOld (download envOk tr0 wOld).2) =
      (fileNames [⟨"a", false⟩, ⟨"sub", true⟩, ⟨"b", false⟩]).map
        (envOk.join (datedDir envOk tr0)) :=
  have h := download_copies_every_file envOk tr0 wOld
    [⟨"a", false⟩, ⟨"sub", true⟩, ⟨"b", false⟩] rfl rfl (by decide) (by decide)
  ⟨h.1, by decide, h.2.2.2.2.2.2.1 "a" (by decide), h.2.2.1⟩

/-- C2, as the claim words it, fails on a listing that names `a` twice when the
open of the second fails: the steps of the first entry all succeeded and
`download` returns the error of the second, yet the file of the first entry,
truncated by the second create, is empty and not the remote content. -/
theorem download_duplicate_name_truncates :
    stepsOk envDup tr0.RemoteDir (datedDir envDup tr0) 0 [⟨"a", false⟩] = true ∧
    entryErr envDup tr0.RemoteDir (datedDir envDup tr0) 1 ⟨"a", false⟩ = some "open failed" ∧
    (download envDup tr0 w0).1 = some "open failed" ∧
    (download envDup tr0 w0).2.files (envDup.join (datedDir envDup tr0) "a") = some [] ∧
    envDup.remoteContent (envDup.join tr0.RemoteDir "a") = [1, 2, 3] := by
  decide

/-- C2, amended: when the listing and the directory creation succeed, every
step of the entries before the non-directory entry `f` succeeds and the
create, open or copy of `f` fails with `e`, then `download` returns `e`; the
creates called are those of the entries up to `f` and no later one; the remote
opens are those of the entries before `f`, and that of `f` if its create
succeeded, and no later one; every earlier non-directory entry whose
destination path is not that of a later entry before `f`, and is not that of
`f` unless it is the create of `f` that fails, holds its full remote content;
every local path that is not the destination of an entry up to `f` is as
before the run. -/
theorem download_fails_at_entry (env : Env) (tr : Transfer) (w : World)
    (pre : List FileInfo) (f : FileInfo) (suf : List FileInfo) (e : Err)
    (hlist : env.readDir tr.RemoteDir = Except.ok (pre ++ f :: suf))
    (hmk : (env.mkdirAll (datedDir env tr)).err = none)
    (hpre : stepsOk env tr.RemoteDir (datedDir env tr) 0 pre = true)
    (hd : f.isDir = false)
    (hfail : entryErr env tr.RemoteDir (datedDir env tr) pre.length f = some e) :
    (download env tr w).1 = some e ∧
    createCalls (newEvents w (download env tr w).2) =
      (fileNames (pre ++ [f])).map (env.join (datedDir env tr)) ∧
    createdFiles (newEvents w (download env tr w).2) =
      (fileNames pre).map (env.join (datedDir env tr)) ++
        failDefers env (datedDir env tr) pre.length f ∧
    openCalls (newEvents w (download env tr w).2) =
      (fileNames pre).map (env.join tr.RemoteDir) ++
        (failDefers env (datedDir env tr) pre.length f).map
          (fun _ => env.join tr.RemoteDir f.name) ∧
    (∀ (p1 : List FileInfo) (g : FileInfo) (p2 : List FileInfo),
      pre = p1 ++ g :: p2 →
      g.isDir = false →
      env.join (datedDir env tr) g.name ∉ (fileNames p2).map (env.join (datedDir env tr)) →
      (env.join (datedDir env tr) g.name ≠ env.join (datedDir env tr) f.name ∨
        (env.create pre.length (env.join (datedDir env tr) f.name)).isSome = true) →
      (download env tr w).2.files (env.join (datedDir env tr) g.name) =
        some (env.remoteContent (env.join tr.RemoteDir g.name))) ∧
    (∀ p, p ∉ (fileNames (pre ++ [f])).map (env.join (datedDir env tr)) →
      (download env tr w).2.files p = w.files p) := by
  obtain ⟨h1, h2, _, h4, _, _, _⟩ :=
    download_fail env tr w pre f suf e hlist hmk hpre hd hfail
  obtain ⟨c1, c2, c3, _, _⟩ :=
    failEvents_calls env tr.RemoteDir (datedDir env tr) f pre.length e hd hfail
  have hnew := newEvents_eq h4
  have hnames : fileNames (pre ++ [f]) = fileNames pre ++ [f.name] := by
    rw [fileNames_append, fileNames_cons_file [] hd]; rfl
  refine ⟨h1, ?_, ?_, ?_, ?_, ?_⟩
  · rw [hnew, createCalls_append, createCalls_append, createCalls_append,
      createCalls_startEvents, createCalls_okEvents, c1, createCalls_closes, hnames]
    simp
  · rw [hnew, createdFiles_append, createdFiles_append, createdFiles_append,
      createdFiles_startEvents, createdFiles_okEvents, c2, createdFiles_closes]
    simp
  · rw [hnew, openCalls_append, openCalls_append, openCalls_append,
      openCalls_startEvents, openCalls_okEvents, c3, openCalls_closes]
    simp
  · intro p1 g p2 hsplit hg hlast hcase
    have hw : written env tr.RemoteDir (datedDir env tr) pre
        (env.join (datedDir env tr) g.name) =
        some (env.remoteContent (env.join tr.RemoteDir g.name)) := by
      rw [hsplit]
      exact written_last env tr.RemoteDir (datedDir env tr) p1 g p2 hg hlast
    rw [h2]
    simp only [failFiles]
    cases hc : env.create pre.length (env.join (datedDir env tr) f.name) with
    | some e1 => simp [hw, overlay]
    | none =>
      have hpath : env.join (datedDir env tr) g.name ≠ env.join (datedDir env tr) f.name := by
        rcases hcase with h | h
        · exact h
        · simp [hc] at h
      cases ho : env.openErr pre.length (env.join tr.RemoteDir f.name) with
      | some e1 => simp [hpath, hw, overlay]
      | none =>
        cases hcp : env.copyErr pre.length (env.join (datedDir env tr) f.name) with
        | none => simp [hw, overlay]
        | some r => simp [hpath, hw, overlay]
  · intro p hp
    rw [hnames] at hp
    simp only [List.map_append, List.map_cons, List.map_nil, List.mem_append,
      List.mem_singleton, not_or] at hp
    have hw := written_none env tr.RemoteDir (datedDir env tr) pre p hp.1
    rw [h2]
    simp only [failFiles]
    cases hc : env.create pre.length (env.join (datedDir env tr) f.name) with
    | some e1 => simp [hw, overlay]
    | none =>
      cases ho : env.openErr pre.length (env.join tr.RemoteDir f.name) with
      | some e1 => simp [hp.2, hw, overlay]
      | none =>
        cases hcp : env.copyErr pre.length (env.join (datedDir env tr) f.name) with
        | none => simp [hw, overlay]
        | some r => simp [hp.2, hw, overlay]

/-- C2, amended, at `envOpenFail`: the open of `b` fails after `a` was copied;
the error is returned and `a` keeps its remote bytes. -/
theorem download_fails_at_entry_witness :
    (download envOpenFail tr0 w0).1 = some "open failed" ∧
    (download envOpenFail tr0 w0).2.files (envOpenFail.join (datedDir envOpenFail tr0) "a") =
      some (envOpenFail.remoteContent (envOpenFail.join tr0.RemoteDir "a")) :=
  have h := download_fails_at_entry envOpenFail tr0 w0 [⟨"a", false⟩, ⟨"sub", true⟩]
    ⟨"b", false⟩ [] "open failed" rfl rfl (by decide) rfl (by decide)
  ⟨h.1, h.2.2.2.2.1 [] ⟨"a", false⟩ [⟨"sub", true⟩] rfl rfl (by decide)
    (Or.inl (by decide))⟩

/-- C3: when the listing succeeds and the creation of the dated directory
fails with `e`, `download` returns `e`, the local files are unchanged, and no
create and no remote open is called. -/
theorem download_mkdir_fails (env : Env) (tr : Transfer) (w : World)
    (files : List FileInfo) (e : Err)
    (hlist : env.readDir tr.RemoteDir = Except.ok files)
    (hmk : (env.mkdirAll (datedDir env tr)).err = some e) :
    (download env tr w).1 = some e ∧
    (download env tr w).2.files = w.files ∧
    createCalls (newEvents w (download env tr w).2) = [] ∧
    (openCalls (newEvents w (download env tr w).2)).length = 0 ∧
    (download env tr w).2.localOpen = w.localOpen := by
  have hmk1 : (env.mkdirAll (env.join tr.LocalDir env.today)).err = some e := hmk
  have htrace : (download env tr w).2.trace = w.trace ++
      (Event.readDir tr.RemoteDir true :: foundEvents files ++
        [Event.mkdirAll (datedDir env tr) false]) := by
    simp [download, hlist, hmk1, World.mkdirAll, World.emit, logFound_spec, datedDir]
  have hnew := newEvents_eq htrace
  refine ⟨?_, ?_, ?_, ?_, ?_⟩
  · simp [download, hlist, hmk1]
  · simp [download, hlist, hmk1, World.mkdirAll, World.emit, logFound_spec]
  · rw [hnew, List.cons_append, ← List.singleton_append, createCalls_append,
      createCalls_append, createCalls_foundEvents]
    simp [createCalls]
  · rw [hnew, List.cons_append, ← List.singleton_append, openCalls_append,
      openCalls_append, openCalls_foundEvents]
    simp [openCalls]
  · simp [download, hlist, hmk1, World.mkdirAll, World.emit, logFound_spec]

/-- C3 at `envMkdirFail`: the error of `os.MkdirAll` is returned and nothing is
created. -/
theorem download_mkdir_fails_witness :
    (download envMkdirFail tr0 w0).1 = some "permission denied" ∧
    createCalls (newEvents w0 (download envMkdirFail tr0 w0).2) = [] :=
  have h := download_mkdir_fails envMkdirFail tr0 w0
    [⟨"a", false⟩, ⟨"sub", true⟩, ⟨"b", false⟩] "permission denied" rfl rfl
  ⟨h.1, h.2.2.1⟩

/-- C4: for a parsed configuration, when `ssh.Dial` to `host:port` fails with
`e`, `main` exits with status
1 after logging `e`; its operations are the log line, the agent dial, the
failed dial and the two error lines, so `download` is not called; the local
files and directories are unchanged and no directory creation is called. -/
theorem main_dial_fails (env : Env) (tr : Transfer) (w : World) (e : Err)
    (hdial : env.sshDial tr.addr tr.Username (specAuths env.agentDial tr.Password) = some e) :
    (main env (Flags.parsed tr) w).2 = 1 ∧
    newEvents w (main env (Flags.parsed tr) w).1 =
      [Event.log ("Connecting: " ++ tr.Server),
       Event.agentDial env.agentDial,
       Event.sshDial tr.addr tr.Username (specAuths env.agentDial tr.Password) false,
       Event.log ("Error unable to connect to [" ++ tr.addr ++ "]: " ++ e),
       Event.log e,
       Event.exit 1] ∧
    (main env (Flags.parsed tr) w).1.files = w.files ∧
    (main env (Flags.parsed tr) w).1.dirs = w.dirs ∧
    mkdirCalls (newEvents w (main env (Flags.parsed tr) w).1) = [] ∧
    createCalls (newEvents w (main env (Flags.parsed tr) w).1) = [] := by
  have hc : connected env tr w = (some e, { w with trace := w.trace ++
      [Event.log ("Connecting: " ++ tr.Server),
       Event.agentDial env.agentDial,
       Event.sshDial tr.addr tr.Username (specAuths env.agentDial tr.Password) false,
       Event.log ("Error unable to connect to [" ++ tr.addr ++ "]: " ++ e)] }) := by
    simp only [connected]
    rw [connect_spec, hdial]
    simp [World.logln, World.emit]
  have hm := main_connect_error env tr w e (by rw [hc])
  rw [hc] at hm
  have htrace : (main env (Flags.parsed tr) w).1.trace = w.trace ++
      [Event.log ("Connecting: " ++ tr.Server),
       Event.agentDial env.agentDial,
       Event.sshDial tr.addr tr.Username (specAuths env.agentDial tr.Password) false,
       Event.log ("Error unable to connect to [" ++ tr.addr ++ "]: " ++ e),
       Event.log e,
       Event.exit 1] := by
    rw [hm]; simp [fatal, World.logln, World.emit]
  have hnew := newEvents_eq htrace
  refine ⟨by rw [hm], hnew, ?_, ?_, ?_, ?_⟩
  · rw [hm]; rfl
  · rw [hm]; rfl
  · rw [hnew]; simp [mkdirCalls]
  · rw [hnew]; simp [createCalls]

/-- C4 at `envDialFail`: exit status 1 and no directory created. -/
theorem main_dial_fails_witness :
    (main envDialFail (Flags.parsed tr0) w0).2 = 1 ∧ (main envDialFail (Flags.parsed tr0) w0).1.dirs = w0.dirs :=
  have h := main_dial_fails envDialFail tr0 w0 "no route to host" rfl
  ⟨h.1, h.2.2.2.1⟩

/-- C6: `connect` calls `ssh.Dial` exactly once, whatever the outcome of the
agent dial, with the auth method list of the specification: the agent method if
the agent dial succeeded, then the password method if the password is not
empty.  The error of `connect` is that of `ssh.Dial`, else that of
`sftp.NewClient`: a failed agent dial is no error.  With a failed agent dial
and an empty password the list passed is empty. -/
theorem connect_auth_list (env : Env) (tr : Transfer) (w : World) :
    dialCalls (newEvents w (connect env tr w).2) =
      [(tr.addr, tr.Username, specAuths env.agentDial tr.Password)] ∧
    (connect env tr w).1 =
      (match env.sshDial tr.addr tr.Username (specAuths env.agentDial tr.Password) with
       | some e => some e
       | none => env.sftpNewClient) ∧
    specAuths true tr.Password =
      AuthMethod.publicKeysCallback ::
        (if tr.Password = "" then [] else [AuthMethod.password tr.Password]) ∧
    specAuths false tr.Password =
      (if tr.Password = "" then [] else [AuthMethod.password tr.Password]) ∧
    specAuths false "" = [] := by
  obtain ⟨evs, h1, _, _, _, _, _, _, h8⟩ := connect_frame env tr w
  refine ⟨?_, ?_, ?_, ?_, ?_⟩
  · rw [newEvents_eq h1, h8]
  · rw [connect_spec]
    cases env.sshDial tr.addr tr.Username (specAuths env.agentDial tr.Password) with
    | some e => rfl
    | none => cases env.sftpNewClient <;> rfl
  · simp [specAuths]
  · simp [specAuths]
  · simp [specAuths]

/-- C7 fails on the code: when `download` fails (`envListFail`) `main` exits
with status 1 while the connection and the sftp client are still open, and it
never called their `Close`; when `sftp.NewClient` fails (`envSftpFail`) the
connection is left open likewise.  Only the successful run (`envOk`) closes
both handles. -/
theorem main_leaves_handles_open :
    ((main envListFail (Flags.parsed tr0) w0).2 = 1 ∧
      (main envListFail (Flags.parsed tr0) w0).1.connOpen = true ∧
      (main envListFail (Flags.parsed tr0) w0).1.clientOpen = true ∧
      Event.closeConn ∉ (main envListFail (Flags.parsed tr0) w0).1.trace ∧
      Event.closeClient ∉ (main envListFail (Flags.parsed tr0) w0).1.trace) ∧
    ((main envSftpFail (Flags.parsed tr0) w0).2 = 1 ∧
      (main envSftpFail (Flags.parsed tr0) w0).1.connOpen = true ∧
      Event.closeConn ∉ (main envSftpFail (Flags.parsed tr0) w0).1.trace) ∧
    ((main envOk (Flags.parsed tr0) w0).2 = 0 ∧
      (main envOk (Flags.parsed tr0) w0).1.connOpen = false ∧
      (main envOk (Flags.parsed tr0) w0).1.clientOpen = false) := by
  decide

/-- C8, as the claim words it, fails when `flag.Parse()` rejects the command
line, as for an undefined flag: the process exits with status 2 and nothing
else happens, so neither `connect` nor `download` returned an error. -/
theorem main_exits_on_rejected_flags :
    (main envOk (Flags.exit 2) w0).2 = 2 ∧
    (main envOk (Flags.exit 2) w0).1.trace = [Event.exit 2] ∧
    dialCalls (main envOk (Flags.exit 2) w0).1.trace = [] := by
  decide

/-- C8, amended: when `flag.Parse()` accepts the command line, `main` exits
with a non-zero status exactly when `connect` returns an error or, `connect`
having succeeded, `download` returns one.  On an error of `connect` nothing
follows but the fatal log line and the exit with status 1; on an error of
`download` likewise; otherwise `main` logs `Backup done.`, runs its two
deferred closes and exits with status 0.  When `flag.Parse()` rejects the
command line the process exits with the status of the flag package and nothing
else is done. -/
theorem main_exit_status (env : Env) (tr : Transfer) (w : World) :
    ((main env (Flags.parsed tr) w).2 ≠ 0 ↔
      ((connected env tr w).1 ≠ none ∨
        ((connected env tr w).1 = none ∧
          (download env tr (connected env tr w).2).1 ≠ none))) ∧
    (∀ e, (connected env tr w).1 = some e →
      (main env (Flags.parsed tr) w).2 = 1 ∧
      (main env (Flags.parsed tr) w).1.trace =
        (connected env tr w).2.trace ++ [Event.log e, Event.exit 1]) ∧
    (∀ e, (connected env tr w).1 = none →
      (download env tr (connected env tr w).2).1 = some e →
      (main env (Flags.parsed tr) w).2 = 1 ∧
      (main env (Flags.parsed tr) w).1.trace =
        (download env tr (connected env tr w).2).2.trace ++ [Event.log e, Event.exit 1]) ∧
    ((connected env tr w).1 = none →
      (download env tr (connected env tr w).2).1 = none →
      (main env (Flags.parsed tr) w).2 = 0 ∧
      (main env (Flags.parsed tr) w).1.trace =
        (download env tr (connected env tr w).2).2.trace ++
          [Event.log "Backup done.", Event.closeConn, Event.closeClient, Event.exit 0]) ∧
    (∀ code, main env (Flags.exit code) w = (w.emit (Event.exit code), code)) := by
  have hA : ∀ e, (connected env tr w).1 = some e →
      (main env (Flags.parsed tr) w).2 = 1 ∧
      (main env (Flags.parsed tr) w).1.trace =
        (connected env tr w).2.trace ++ [Event.log e, Event.exit 1] := by
    intro e h
    rw [main_connect_error env tr w e h]
    simp [fatal, World.logln, World.emit]
  have hB : ∀ e, (connected env tr w).1 = none →
      (download env tr (connected env tr w).2).1 = some e →
      (main env (Flags.parsed tr) w).2 = 1 ∧
      (main env (Flags.parsed tr) w).1.trace =
        (download env tr (connected env tr w).2).2.trace ++
          [Event.log e, Event.exit 1] := by
    intro e hc h
    rw [main_download_error env tr w e hc h]
    simp [fatal, World.logln, World.emit]
  have hC : (connected env tr w).1 = none →
      (download env tr (connected env tr w).2).1 = none →
      (main env (Flags.parsed tr) w).2 = 0 ∧
      (main env (Flags.parsed tr) w).1.trace =
        (download env tr (connected env tr w).2).2.trace ++
          [Event.log "Backup done.", Event.closeConn, Event.closeClient, Event.exit 0] := by
    intro hc h
    rw [main_success env tr w hc h]
    exact ⟨rfl, rfl⟩
  refine ⟨?_, hA, hB, hC, fun _ => rfl⟩
  cases hc : (connected env tr w).1 with
  | some e => simp [(hA e hc).1]
  | none =>
    cases hd : (download env tr (connected env tr w).2).1 with
    | some e => simp [(hB e hc hd).1]
    | none => simp [(hC hc hd).1]

/-- C8, amended, at `envListFail`: `connect` succeeds, `download` fails and `main` exits
with status 1. -/
theorem main_exit_status_witness :
    (main envListFail (Flags.parsed tr0) w0).2 = 1 :=
  ((main_exit_status envListFail tr0 w0).2.2.1 "no such directory"
    (by decide) (by decide)).1

/-- C9, as the claim words it, fails on the successful run `envOk`: both local
files are closed by the program before `main` logs `Backup done.` and exits, so
they are not held until the process exits; when `download` has returned no
local handle is open. -/
theorem local_handles_closed_before_exit :
    (main envOk (Flags.parsed tr0) w0).1.trace.drop 19 =
      [Event.closeLocal "backup/2026-11-04/b",
       Event.closeLocal "backup/2026-11-04/a",
       Event.log "Backup done.",
       Event.closeConn,
       Event.closeClient,
       Event.exit 0] ∧
    (download envOk tr0 (connected envOk tr0 w0).2).2.localOpen = [] := by
  decide

/-- C9, amended: while the copy loop runs no local handle is closed: once the
entries `pre` are processed successfully the handles of all their files are
open, none has been closed, and the loop goes on from that state.  The handles
are closed by the deferred calls when `download` returns, in every outcome and
last opened first; hence in every run of `main` every local file created has
been closed before the exit (a run that ends in `flag.Parse()` creates none). -/
theorem local_handles_closed_at_return (env : Env) (tr : Transfer) (w : World) :
    (∀ pre suf : List FileInfo,
      env.readDir tr.RemoteDir = Except.ok (pre ++ suf) →
      (env.mkdirAll (datedDir env tr)).err = none →
      stepsOk env tr.RemoteDir (datedDir env tr) 0 pre = true →
      ∃ (d1 : List String) (w1 : World),
        downloadLoop env tr.RemoteDir (datedDir env tr) 0 pre []
          (loopStart env tr (pre ++ suf) w) = (none, d1, w1) ∧
        downloadLoop env tr.RemoteDir (datedDir env tr) 0 (pre ++ suf) []
          (loopStart env tr (pre ++ suf) w) =
          downloadLoop env tr.RemoteDir (datedDir env tr) pre.length suf d1 w1 ∧
        w1.localOpen =
          ((fileNames pre).map (env.join (datedDir env tr))).reverse ++ w.localOpen ∧
        createdFiles (newEvents w w1) = (fileNames pre).map (env.join (datedDir env tr)) ∧
        closedLocal (newEvents w w1) = []) ∧
    ((download env tr w).2.localOpen = w.localOpen ∧
      closedLocal (newEvents w (download env tr w).2) =
        (createdFiles (newEvents w (download env tr w).2)).reverse) ∧
    (∃ (evs : List Event) (code : Nat),
      (main env (Flags.parsed tr) w).1.trace = w.trace ++ evs ++ [Event.exit code] ∧
      closedLocal evs = (createdFiles evs).reverse ∧
      (main env (Flags.parsed tr) w).1.localOpen = w.localOpen) ∧
    (∀ code,
      (main env (Flags.exit code) w).1.trace = w.trace ++ [Event.exit code] ∧
      (main env (Flags.exit code) w).1.localOpen = w.localOpen) := by
  refine ⟨?_, ?_, ?_, fun _ => ⟨rfl, rfl⟩⟩
  · intro pre suf _ hmk hpre
    obtain ⟨w1, h1, _, _, h4, h5, _, _⟩ :=
      downloadLoop_ok env tr.RemoteDir (datedDir env tr) pre 0 []
        (loopStart env tr (pre ++ suf) w) hpre
    obtain ⟨_, _, s3, s4, _, _⟩ := loopStart_spec env tr w (pre ++ suf) hmk
    have htrace : w1.trace = w.trace ++ (startEvents env tr (pre ++ suf) ++
        okEvents env tr.RemoteDir (datedDir env tr) pre) := by
      rw [h4, s3, List.append_assoc]
    refine ⟨_, w1, h1, ?_, ?_, ?_, ?_⟩
    · have := downloadLoop_append env tr.RemoteDir (datedDir env tr) pre suf 0 []
        (loopStart env tr (pre ++ suf) w) _ _ h1
      rw [Nat.zero_add] at this
      exact this
    · rw [h5, s4]
    · rw [newEvents_eq htrace, createdFiles_append, createdFiles_startEvents,
        createdFiles_okEvents, List.nil_append]
    · rw [newEvents_eq htrace, closedLocal_append, closedLocal_startEvents,
        closedLocal_okEvents, List.nil_append]
  · obtain ⟨evs, h1, h2, _, _, h5, _⟩ := download_frame env tr w
    exact ⟨h2, by rw [newEvents_eq h1]; exact h5⟩
  · obtain ⟨cevs, c1, _, _, c4, c5, c6, _, _⟩ :=
      connect_frame env tr (w.logln ("Connecting: " ++ tr.Server))
    have hct : (connected env tr w).2.trace =
        w.trace ++ (Event.log ("Connecting: " ++ tr.Server) :: cevs) := by
      simp only [connected]
      rw [c1]
      simp [World.logln, World.emit]
    have hcl : (connected env tr w).2.localOpen = w.localOpen := by
      simp only [connected]
      rw [c4]
      rfl
    cases hc : (connected env tr w).1 with
    | some e =>
      have hm := main_connect_error env tr w e hc
      refine ⟨Event.log ("Connecting: " ++ tr.Server) :: cevs ++ [Event.log e], 1, ?_, ?_, ?_⟩
      · rw [hm]; simp [fatal, World.logln, World.emit, hct]
      · rw [List.cons_append, ← List.singleton_append, closedLocal_append,
          closedLocal_append, createdFiles_append, createdFiles_append, c5, c6]
        simp [closedLocal, createdFiles]
      · rw [hm]; simp [fatal, World.logln, World.emit, hcl]
    | none =>
      obtain ⟨devs, d1, d2, _, _, d5, _⟩ := download_frame env tr (connected env tr w).2
      cases hd : (download env tr (connected env tr w).2).1 with
      | some e =>
        have hm := main_download_error env tr w e hc hd
        refine ⟨Event.log ("Connecting: " ++ tr.Server) :: cevs ++ (devs ++ [Event.log e]),
          1, ?_, ?_, ?_⟩
        · rw [hm]; simp [fatal, World.logln, World.emit, d1, hct]
        · rw [List.cons_append, ← List.singleton_append, closedLocal_append,
            closedLocal_append, closedLocal_append, createdFiles_append,
            createdFiles_append, createdFiles_append, c5, c6, d5]
          simp [closedLocal, createdFiles]
        · rw [hm]; simp [fatal, World.logln, World.emit, d2, hcl]
      | none =>
        have hm := main_success env tr w hc hd
        refine ⟨Event.log ("Connecting: " ++ tr.Server) :: cevs ++
          (devs ++ [Event.log "Backup done.", Event.closeConn, Event.closeClient]),
          0, ?_, ?_, ?_⟩
        · rw [hm]; simp [d1, hct]
        · rw [List.cons_append, ← List.singleton_append, closedLocal_append,
            closedLocal_append, closedLocal_append, createdFiles_append,
            createdFiles_append, createdFiles_append, c5, c6, d5]
          simp [closedLocal, createdFiles]
        · rw [hm]; simp [d2, hcl]

/-- C9, amended, at `envOk`: after `download` no local handle is open, and the
closes recorded are those of the two files, last created first. -/
theorem local_handles_closed_at_return_witness :
    (download envOk tr0 w0).2.localOpen = w0.localOpen ∧
    closedLocal (newEvents w0 (download envOk tr0 w0).2) =
      (createdFiles (newEvents w0 (download envOk tr0 w0).2)).reverse :=
  (local_handles_closed_at_return envOk tr0 w0).2.1

/-- C10: in every run of `download`, at every point of the run the remote
opens attempted are no more than the local files created, so also at its end.
When the create of the non-directory entry `f` succeeds and its remote open
fails with `e`, after successful steps for the entries before it, `download`
returns `e`, the local file of `f` exists and is empty whatever the local files
were before the run, and the last create is that of `f`, followed by the open
that failed. -/
theorem create_precedes_open (env : Env) (tr : Transfer) (w : World) :
    OpensFollowCreates (newEvents w (download env tr w).2) ∧
    (openCalls (newEvents w (download env tr w).2)).length ≤
      (createdFiles (newEvents w (download env tr w).2)).length ∧
    (∀ (pre : List FileInfo) (f : FileInfo) (suf : List FileInfo) (e : Err),
      env.readDir tr.RemoteDir = Except.ok (pre ++ f :: suf) →
      (env.mkdirAll (datedDir env tr)).err = none →
      stepsOk env tr.RemoteDir (datedDir env tr) 0 pre = true →
      f.isDir = false →
      env.create pre.length (env.join (datedDir env tr) f.name) = none →
      env.openErr pre.length (env.join tr.RemoteDir f.name) = some e →
      (download env tr w).1 = some e ∧
      (download env tr w).2.files (env.join (datedDir env tr) f.name) = some [] ∧
      createdFiles (newEvents w (download env tr w).2) =
        (fileNames pre).map (env.join (datedDir env tr)) ++
          [env.join (datedDir env tr) f.name] ∧
      openCalls (newEvents w (download env tr w).2) =
        (fileNames pre).map (env.join tr.RemoteDir) ++ [env.join tr.RemoteDir f.name]) := by
  obtain ⟨evs, h1, _, _, _, _, h6⟩ := download_frame env tr w
  have hnew := newEvents_eq h1
  refine ⟨by rw [hnew]; exact h6, ?_, ?_⟩
  · have := h6 evs.length
    rw [List.take_length] at this
    rw [hnew]
    exact this
  · intro pre f suf e hlist hmk hpre hd hc ho
    have hfail : entryErr env tr.RemoteDir (datedDir env tr) pre.length f = some e := by
      simp [entryErr, hd, hc, ho]
    obtain ⟨g1, g2, _, g4, _, _, _⟩ :=
      download_fail env tr w pre f suf e hlist hmk hpre hd hfail
    obtain ⟨_, c2, c3, _, _⟩ :=
      failEvents_calls env tr.RemoteDir (datedDir env tr) f pre.length e hd hfail
    have hnew2 := newEvents_eq g4
    have hdef : failDefers env (datedDir env tr) pre.length f =
        [env.join (datedDir env tr) f.name] := by
      simp [failDefers, hc]
    refine ⟨g1, ?_, ?_, ?_⟩
    · rw [g2]
      simp [failFiles, hc, ho]
    · rw [hnew2, createdFiles_append, createdFiles_append, createdFiles_append,
        createdFiles_startEvents, createdFiles_okEvents, c2, createdFiles_closes, hdef]
      simp
    · rw [hnew2, openCalls_append, openCalls_append, openCalls_append,
        openCalls_startEvents, openCalls_okEvents, c3, openCalls_closes, hdef]
      simp

/-- C10 at `envOpenFirst` over `wOld`, where `a` held an earlier copy: the open
of `a` fails, the error is returned and the file is left empty. -/
theorem create_precedes_open_witness :
    (download envOpenFirst tr0 wOld).1 = some "open failed" ∧
    wOld.files (envOpenFirst.join (datedDir envOpenFirst tr0) "a") = some [9, 9, 9, 9, 9] ∧
    (download envOpenFirst tr0 wOld).2.files
      (envOpenFirst.join (datedDir envOpenFirst tr0) "a") = some [] :=
  have h := (create_precedes_open envOpenFirst tr0 wOld).2.2 [] ⟨"a", false⟩
    [⟨"sub", true⟩, ⟨"b", false⟩] "open failed" rfl rfl (by decide) rfl (by decide) (by decide)
  ⟨h.1, by decide, h.2.1⟩

/-- C5: when the listing, the directory creation and every step succeed,
running `download` again on the world left by a first run, with the same
configuration, date and remote state, succeeds and leaves the local files and
directories as the first run left them; both runs create the same paths and
the same dated directory; and after either run a destination file holds
exactly the remote content of the entry written to it (of the last such entry
if several share the path), whatever the file held before: the content is
replaced, not appended to or left in part. -/
theorem download_twice_same (env : Env) (tr : Transfer) (w : World)
    (files : List FileInfo)
    (hlist : env.readDir tr.RemoteDir = Except.ok files)
    (hmk : (env.mkdirAll (datedDir env tr)).err = none)
    (hsteps : stepsOk env tr.RemoteDir (datedDir env tr) 0 files = true) :
    (download env tr w).1 = none ∧
    (download env tr (download env tr w).2).1 = none ∧
    (download env tr (download env tr w).2).2.files = (download env tr w).2.files ∧
    (download env tr (download env tr w).2).2.dirs = (download env tr w).2.dirs ∧
    createdFiles (newEvents (download env tr w).2 (download env tr (download env tr w).2).2) =
      createdFiles (newEvents w (download env tr w).2) ∧
    mkdirCalls (newEvents (download env tr w).2 (download env tr (download env tr w).2).2) =
      [datedDir env tr] ∧
    mkdirCalls (newEvents w (download env tr w).2) = [datedDir env tr] ∧
    (∀ p ∈ (fileNames files).map (env.join (datedDir env tr)),
      ∃ name ∈ fileNames files, env.join (datedDir env tr) name = p ∧
        (download env tr w).2.files p =
          some (env.remoteContent (env.join tr.RemoteDir name)) ∧
        (download env tr (download env tr w).2).2.files p =
          some (env.remoteContent (env.join tr.RemoteDir name))) ∧
    (∀ (pre : List FileInfo) (f : FileInfo) (suf : List FileInfo),
      files = pre ++ f :: suf →
      f.isDir = false →
      env.join (datedDir env tr) f.name ∉ (fileNames suf).map (env.join (datedDir env tr)) →
      (download env tr w).2.files (env.join (datedDir env tr) f.name) =
        some (env.remoteContent (env.join tr.RemoteDir f.name)) ∧
      (download env tr (download env tr w).2).2.files (env.join (datedDir env tr) f.name) =
        some (env.remoteContent (env.join tr.RemoteDir f.name))) := by
  obtain ⟨a1, a2, a3, a4, _, _, _⟩ := download_ok env tr w files hlist hmk hsteps
  obtain ⟨b1, b2, b3, b4, _, _, _⟩ :=
    download_ok env tr (download env tr w).2 files hlist hmk hsteps
  have hdirs : ∀ v : World, (loopStart env tr files v).dirs =
      fun q => v.dirs q || decide (q ∈ (env.mkdirAll (datedDir env tr)).made) ||
        decide (q = datedDir env tr) := by
    intro v
    funext q
    simp [loopStart, logFound_spec, World.mkdirAll, World.logln, World.emit, hmk]
  refine ⟨a1, b1, ?_, ?_, ?_, ?_, ?_, ?_, ?_⟩
  · funext p
    rw [b2 p, a2 p]
    cases written env tr.RemoteDir (datedDir env tr) files p <;> rfl
  · rw [b3, hdirs, a3, hdirs]
    funext q
    show (_ || _ || _ || _ || _) = (_ || _ || _)
    cases w.dirs q <;> cases decide (q ∈ (env.mkdirAll (datedDir env tr)).made) <;>
      cases decide (q = datedDir env tr) <;> rfl
  · rw [newEvents_eq b4, newEvents_eq a4]
  · rw [newEvents_eq b4, mkdirCalls_append, mkdirCalls_append, mkdirCalls_startEvents,
      mkdirCalls_okEvents, mkdirCalls_closes, List.append_nil, List.append_nil]
  · rw [newEvents_eq a4, mkdirCalls_append, mkdirCalls_append, mkdirCalls_startEvents,
      mkdirCalls_okEvents, mkdirCalls_closes, List.append_nil, List.append_nil]
  · intro p hp
    obtain ⟨name, hname, hpath, hw⟩ :=
      written_mem env tr.RemoteDir (datedDir env tr) files p hp
    refine ⟨name, hname, hpath, ?_, ?_⟩
    · rw [a2, hw]; rfl
    · rw [b2, hw]; rfl
  · intro pre f suf hsplit hd hlast
    have hw : written env tr.RemoteDir (datedDir env tr) files
        (env.join (datedDir env tr) f.name) =
        some (env.remoteContent (env.join tr.RemoteDir f.name)) := by
      rw [hsplit]
      exact written_last env tr.RemoteDir (datedDir env tr) pre f suf hd hlast
    constructor
    · rw [a2, hw]; rfl
    · rw [b2, hw]; rfl

/-- C5 at `envOk` over `wOld`, where `a` held a longer earlier copy: after one
run and after two, `a` holds the remote bytes only, and the files are the
same. -/
theorem download_twice_same_witness :
    wOld.files (envOk.join (datedDir envOk tr0) "a") = some [9, 9, 9, 9, 9] ∧
    (download envOk tr0 wOld).2.files (envOk.join (datedDir envOk tr0) "a") = some [1, 2, 3] ∧
    (download envOk tr0 (download envOk tr0 wOld).2).2.files
      (envOk.join (datedDir envOk tr0) "a") = some [1, 2, 3] ∧
    (download envOk tr0 (download envOk tr0 wOld).2).2.files =
      (download envOk tr0 wOld).2.files :=
  have h := download_twice_same envOk tr0 wOld [⟨"a", false⟩, ⟨"sub", true⟩, ⟨"b", false⟩]
    rfl rfl (by decide)
  have hc := h.2.2.2.2.2.2.2.2 [] ⟨"a", false⟩ [⟨"sub", true⟩, ⟨"b", false⟩] rfl rfl
    (by decide)
  ⟨by decide, hc.1, hc.2, h.2.2.1⟩

end SftpBackup
